import Mathlib

/-!
ESPNowTimeSync: the clock-synchronisation engine and its pulse scheduler.

A shallow embedding of `src/ESPNowTimeSync.h` and `src/ESPNowTimeSync.cpp`, and of
`src/ESPNowTimeSyncLED.h` and `src/ESPNowTimeSyncLED.cpp`.

* Machine integers are `Nat`/`Int` with explicit reduction modulo `2^32` or `2^64`.
* The `float` fields (`smoothed_offset_`, `success_rate`, `smoothing_alpha`) are finite
  IEEE-754 binary32 values.  Every finite binary32 value is an integer multiple of
  `2^-149`, so a value `x` is held as the integer `x * 2^149` and every arithmetic
  operation rounds its exact result to the nearest binary32 value, ties to even.  Each
  operation of an expression rounds on its own (no fused multiply-add); infinities and NaN
  are not represented.
* The hardware collaborators (clock readings, the messages the transport delivers, the
  outcome of transport calls) are explicit inputs; calls made to collaborators and to the
  registered callbacks are returned as a list of `Effect`s, in program order.
-/

set_option maxRecDepth 4000

namespace TimeSync

/-! ## Machine integers -/

/-- Two's-complement reading of an unsigned 64-bit pattern as `int64_t`. -/
def toInt64 (u : Nat) : Int :=
  if u % 2 ^ 64 < 2 ^ 63 then ((u % 2 ^ 64 : Nat) : Int) else ((u % 2 ^ 64 : Nat) : Int) - 2 ^ 64

/-- Bit pattern of an integer as `uint64_t` (reduction modulo `2^64`). -/
def toUInt64 (i : Int) : Nat := (i % 2 ^ 64).toNat

/-- Wrap-around of an integer into the `int64_t` range. -/
def wrapInt64 (i : Int) : Int := toInt64 (toUInt64 i)

/-- Membership in the `int64_t` range. -/
def InInt64 (i : Int) : Prop := -(2 ^ 63) ≤ i ∧ i < 2 ^ 63

instance (i : Int) : Decidable (InInt64 i) := by unfold InInt64; infer_instance

/-- Little-endian bytes of a `uint64_t`, as `memcpy` lays them out on the target. -/
def encodeU64 (n : Nat) : List Nat :=
  [n % 256, n / 256 % 256, n / 256 ^ 2 % 256, n / 256 ^ 3 % 256,
   n / 256 ^ 4 % 256, n / 256 ^ 5 % 256, n / 256 ^ 6 % 256, n / 256 ^ 7 % 256]

/-- Value of a little-endian byte string. -/
def decodeLE : List Nat → Nat
  | [] => 0
  | b :: bs => b % 256 + 256 * decodeLE bs

/-! ## binary32 arithmetic -/

/-- A finite binary32 value `x`, held as the integer `x * 2^149`. -/
structure F32 where
  units : Int
deriving DecidableEq, Repr

namespace F32

/-- Number of `2^-149` steps in one unit: `2^149`. -/
def quantum : Nat := 2 ^ 149

/-- Nearest natural number to `n / d`, ties to the even one. -/
def roundNat (n d : Nat) : Nat :=
  let q := n / d
  let r := n % d
  if 2 * r < d then q else if d < 2 * r then q + 1 else if q % 2 = 0 then q else q + 1

/-- Number of binary digits of `n`, by repeated halving; `fuel` bounds the number of steps. -/
def bitLengthAux : Nat → Nat → Nat
  | 0, _ => 0
  | fuel + 1, n => if n = 0 then 0 else bitLengthAux fuel (n / 2) + 1

/-- Number of binary digits of `n` (`0` for `0`). -/
def bitLength (n : Nat) : Nat := bitLengthAux n n

/-- Magnitude `n / d` (counted in steps of `2^-149`) rounded to 24 significant bits, ties to
even; below `2^24` steps the spacing of binary32 values is one step. -/
def roundMag (n d : Nat) : Nat :=
  let sh := bitLength (n / d) - 24
  roundNat n (d * 2 ^ sh) * 2 ^ sh

/-- The binary32 value nearest to `num / den` steps of `2^-149` (round to nearest, ties to
even).  Overflow to infinity (magnitude `2^128` and above) and NaN are not represented. -/
def round (num : Int) (den : Nat) : F32 :=
  if num < 0 then ⟨-(roundMag num.natAbs den : Int)⟩ else ⟨(roundMag num.natAbs den : Int)⟩

/-- Conversion of an integer to `float`. -/
def ofInt (n : Int) : F32 := round (n * quantum) 1

/-- binary32 addition. -/
def add (a b : F32) : F32 := round (a.units + b.units) 1

/-- binary32 subtraction. -/
def sub (a b : F32) : F32 := round (a.units - b.units) 1

/-- binary32 multiplication. -/
def mul (a b : F32) : F32 := round (a.units * b.units) quantum

/-- binary32 division (the divisor is not zero). -/
def div (a b : F32) : F32 := round (a.units * quantum * b.units.sign) b.units.natAbs

/-- The cast `(int64_t)x`: the fractional part is discarded (truncation toward zero).  The
cast is defined in C++ only when the truncated value lies in the `int64_t` range, and this
is its value there; outside that range the source has no defined result, and statements
about the result of the cast carry the range as a hypothesis. -/
def toInt64 (a : F32) : Int := Int.tdiv a.units quantum

/-- The integer nearest to `x`, halves away from zero (as `llroundf`). -/
def roundNearest (a : F32) : Int :=
  if a.units < 0 then -(((2 * a.units.natAbs + quantum) / (2 * quantum) : Nat) : Int)
  else (((2 * a.units.natAbs + quantum) / (2 * quantum) : Nat) : Int)

/-- The rational number a binary32 value stands for. -/
def toRat (a : F32) : ℚ := (a.units : ℚ) / (quantum : ℚ)

end F32

/-! ## Data model (`ESPNowTimeSync.h`) -/

/-- Configuration structure `TimeSyncConfig`. -/
structure TimeSyncConfig where
  channel : Nat
  smoothing_alpha : F32
  sync_interval_ms : Nat
  response_timeout_ms : Nat
  enable_logging : Bool
  log_interval_syncs : Nat
  resync_interval_ms : Nat
  max_missed_responses : Nat
deriving DecidableEq, Repr

/-- The default member initialisers of `TimeSyncConfig`; `0.05f` is the binary32 value
nearest to `1/20`. -/
def TimeSyncConfig.default : TimeSyncConfig :=
  { channel := 0
    smoothing_alpha := F32.round F32.quantum 20
    sync_interval_ms := 1000
    response_timeout_ms := 50
    enable_logging := false
    log_interval_syncs := 10
    resync_interval_ms := 200
    max_missed_responses := 3 }

/-- Statistics structure `SyncStats`; the counters are `uint32_t`. -/
structure SyncStats where
  sync_count : Nat
  fail_count : Nat
  last_offset_us : Int
  last_rtt_us : Int
  success_rate : F32
deriving DecidableEq, Repr

/-- Wire structure `TimeRequest` (8 bytes). -/
structure TimeRequest where
  t1 : Nat
deriving DecidableEq, Repr

/-- Wire structure `TimeResponse` (24 bytes); the fields are `uint64_t`. -/
structure TimeResponse where
  t1 : Nat
  t2_recv : Nat
  t3_send : Nat
deriving DecidableEq, Repr

/-- The value of `sizeof(TimeRequest)`. -/
def sizeofTimeRequest : Nat := 8

/-- The value of `sizeof(TimeResponse)`. -/
def sizeofTimeResponse : Nat := 24

/-- Bytes of a `TimeRequest` as sent by `esp_now_send`. -/
def TimeRequest.encode (r : TimeRequest) : List Nat := encodeU64 r.t1

/-- Result of `memcpy(&req, data, sizeof(req))`. -/
def TimeRequest.decode (data : List Nat) : TimeRequest := ⟨decodeLE (data.take 8)⟩

/-- Bytes of a `TimeResponse` as sent by `esp_now_send`. -/
def TimeResponse.encode (r : TimeResponse) : List Nat :=
  encodeU64 r.t1 ++ encodeU64 r.t2_recv ++ encodeU64 r.t3_send

/-- Result of `memcpy(&response_, data, sizeof(response_))`. -/
def TimeResponse.decode (data : List Nat) : TimeResponse :=
  ⟨decodeLE (data.take 8), decodeLE ((data.drop 8).take 8), decodeLE ((data.drop 16).take 8)⟩

/-- The private and public members of class `ESPNowTimeSync`.  A callback member holds
`true` when a callable is registered (it tests true in `if (sync_status_callback_)`). -/
structure ESPNowTimeSync where
  config_ : TimeSyncConfig
  is_master_ : Bool
  initialized_ : Bool
  sync_active_ : Bool
  is_synchronized_ : Bool
  master_mac_ : List Nat
  current_offset_ : Int
  smoothed_offset_ : F32
  last_sync_time_ : Nat
  response_ready_ : Bool
  response_ : TimeResponse
  t4_ : Nat
  stats_ : SyncStats
  sync_status_callback_ : Bool
  sync_event_callback_ : Bool
deriving DecidableEq, Repr

/-- A message handed to the receive callback: sender address, payload bytes (`len` is the
length of `data`), and the reading of `esp_timer_get_time()` taken while it is handled. -/
structure RecvMsg where
  src_addr : List Nat
  data : List Nat
  arrival : Nat
deriving DecidableEq, Repr

/-- Calls made by the engine to its collaborators and to the registered callbacks. -/
inductive Effect where
  | statusCallback (synchronized : Bool) (offset : Int)
  | eventCallback (syncedTimestamp : Int)
  | send (peer : List Nat) (payload : List Nat)
  | registerPeer (mac : List Nat)
  | log
deriving DecidableEq, Repr

/-- What one call of `performSync` reads from its collaborators: the clock reading `t1`
put in the request, the messages the receive callback handles while the routine polls
`response_ready_` (none with the expected size means the wait ends by timeout), and the
clock reading used by `getSyncedTime()` for the sync-event callback. -/
structure AttemptEnv where
  t1 : Nat
  arrivals : List RecvMsg
  now : Nat
deriving DecidableEq, Repr

/-- The transient quantities of one completed exchange. -/
structure SyncAttemptResult where
  roundTrip : Int
  masterProcessing : Int
  networkDelay : Int
  offset : Int
deriving DecidableEq, Repr

namespace ESPNowTimeSync

/-- Member function `resetStats`. -/
def resetStats (s : ESPNowTimeSync) : ESPNowTimeSync :=
  { s with stats_ := { sync_count := 0, fail_count := 0, last_offset_us := 0, last_rtt_us := 0,
                       success_rate := F32.ofInt 0 } }

/-- The constructor: client role, nothing initialised, zeroed address and statistics.
Members the constructor leaves to their default construction (`config_`, `response_`) take
their default values. -/
def new : ESPNowTimeSync :=
  resetStats
    { config_ := TimeSyncConfig.default
      is_master_ := false
      initialized_ := false
      sync_active_ := false
      is_synchronized_ := false
      master_mac_ := [0, 0, 0, 0, 0, 0]
      current_offset_ := 0
      smoothed_offset_ := F32.ofInt 0
      last_sync_time_ := 0
      response_ready_ := false
      response_ := ⟨0, 0, 0⟩
      t4_ := 0
      stats_ := ⟨0, 0, 0, 0, F32.ofInt 0⟩
      sync_status_callback_ := false
      sync_event_callback_ := false }

/-- Member function `setConfig`. -/
def setConfig (s : ESPNowTimeSync) (config : TimeSyncConfig) : ESPNowTimeSync :=
  { s with config_ := config }

/-- Member function `onSyncStatus`: registers the status callback. -/
def onSyncStatus (s : ESPNowTimeSync) : ESPNowTimeSync :=
  { s with sync_status_callback_ := true }

/-- Member function `onSyncEvent`: registers the sync-event callback. -/
def onSyncEvent (s : ESPNowTimeSync) : ESPNowTimeSync :=
  { s with sync_event_callback_ := true }

/-- Member function `getOffset`. -/
def getOffset (s : ESPNowTimeSync) : Int := s.current_offset_

/-- Member function `isSynchronized`. -/
def isSynchronized (s : ESPNowTimeSync) : Bool := s.is_synchronized_

/-- Member function `isRunning`. -/
def isRunning (s : ESPNowTimeSync) : Bool := s.sync_active_

/-- Member function `getStats`. -/
def getStats (s : ESPNowTimeSync) : SyncStats := s.stats_

/-- Member function `getSyncedTime`, with `now` the reading of `esp_timer_get_time()`; the
`int64_t` addition wraps. -/
def getSyncedTime (s : ESPNowTimeSync) (now : Nat) : Int :=
  wrapInt64 (toInt64 now + s.current_offset_)

/-- Member function `updateSyncStatus`. -/
def updateSyncStatus (s : ESPNowTimeSync) (synchronized : Bool) : ESPNowTimeSync × List Effect :=
  let s1 := { s with is_synchronized_ := synchronized }
  (s1, if s1.sync_status_callback_ then [Effect.statusCallback synchronized s1.current_offset_]
       else [])

/-- Member function `begin`.  Inputs besides the arguments: whether `esp_now_init` and
`esp_now_add_peer` return `ESP_OK`.  The calls that set up the radio mode do not touch the
engine and are left out.  Returns the engine and the boolean result. -/
def begin (s : ESPNowTimeSync) (is_master : Bool) (master_mac : Option (List Nat))
    (config : TimeSyncConfig) (init_ok add_peer_ok : Bool) : ESPNowTimeSync × Bool :=
  if s.initialized_ then (s, false)
  else
    let s1 := { s with is_master_ := is_master, config_ := config }
    let s2 :=
      match master_mac with
      | some mac => if !s1.is_master_ then { s1 with master_mac_ := mac.take 6 } else s1
      | none => s1
    if !init_ok then (s2, false)
    else if !s2.is_master_ && !add_peer_ok then (s2, false)
    else ({ s2 with initialized_ := true }, true)

/-- Member function `startSync`, with `now_ms` the reading of `millis()`. -/
def startSync (s : ESPNowTimeSync) (now_ms : Nat) : ESPNowTimeSync × List Effect :=
  if !s.initialized_ then (s, [])
  else
    let s1 := { s with sync_active_ := true, last_sync_time_ := now_ms % 2 ^ 32 }
    let r := if s1.is_master_ then updateSyncStatus { s1 with current_offset_ := 0 } true
             else (s1, [])
    (r.1, r.2 ++ (if r.1.config_.enable_logging then [Effect.log] else []))

/-- Member function `stopSync`. -/
def stopSync (s : ESPNowTimeSync) : ESPNowTimeSync × List Effect :=
  let r := updateSyncStatus { s with sync_active_ := false } false
  (r.1, r.2 ++ (if r.1.config_.enable_logging then [Effect.log] else []))

/-- Member function `registerPeer`: a master asks the transport to add the sender. -/
def registerPeer (s : ESPNowTimeSync) (mac : List Nat) : List Effect :=
  if !s.is_master_ then [] else [Effect.registerPeer mac]

/-- Member function `processTimeRequest`; `m.arrival` is the clock reading taken on receipt
and `send_time` the one taken when the reply is filled in. -/
def processTimeRequest (s : ESPNowTimeSync) (m : RecvMsg) (send_time : Nat) :
    ESPNowTimeSync × List Effect :=
  if !s.is_master_ || m.data.length != sizeofTimeRequest then (s, [])
  else
    let t2_recv := m.arrival % 2 ^ 64
    let req := TimeRequest.decode m.data
    let res : TimeResponse := ⟨req.t1, t2_recv, send_time % 2 ^ 64⟩
    (s, registerPeer s m.src_addr ++ [Effect.send m.src_addr res.encode])

/-- Member function `processTimeResponse`. -/
def processTimeResponse (s : ESPNowTimeSync) (m : RecvMsg) : ESPNowTimeSync :=
  if s.is_master_ || m.data.length != sizeofTimeResponse then s
  else
    { s with t4_ := m.arrival % 2 ^ 64, response_ := TimeResponse.decode m.data,
             response_ready_ := true }

/-- Static member `onReceiveWrapper`.  The static instance pointer is set by `begin` before
the wrapper is registered with the transport, so its null test passes whenever the
transport calls the wrapper; one engine per process is modelled. -/
def onReceiveWrapper (s : ESPNowTimeSync) (m : RecvMsg) (send_time : Nat) :
    ESPNowTimeSync × List Effect :=
  if s.is_master_ then processTimeRequest s m send_time
  else (processTimeResponse s m, [])

/-- The receive callback run on each message that arrives while `performSync` polls the
`response_ready_` flag, in order of arrival. -/
def deliver (s : ESPNowTimeSync) (arrivals : List RecvMsg) : ESPNowTimeSync :=
  arrivals.foldl (fun st m => (onReceiveWrapper st m m.arrival).1) s

/-- The four local variables `roundTrip`, `masterProcessing`, `networkDelay` and `offset`
of `performSync`.  The operands `t4_` and `response_.*` are `uint64_t`, so the differences
are taken modulo `2^64` and then read as `int64_t`; `/` truncates toward zero. -/
def computeOffset (r : TimeResponse) (t4 : Nat) : SyncAttemptResult :=
  let roundTrip := toInt64 (toUInt64 ((t4 : Int) - r.t1))
  let masterProcessing := toInt64 (toUInt64 ((r.t3_send : Int) - r.t2_recv))
  let networkDelay := Int.tdiv (wrapInt64 (roundTrip - masterProcessing)) 2
  let offset := toInt64 (toUInt64 ((r.t2_recv : Int) + networkDelay - r.t1))
  ⟨roundTrip, masterProcessing, networkDelay, offset⟩

/-- The expression `100.0f * sync_count / (sync_count + fail_count)`: the `uint32_t` sum
wraps, both counters are converted to `float`, and the product and the quotient are rounded. -/
def successRate (sync_count fail_count : Nat) : F32 :=
  F32.div (F32.mul (F32.ofInt 100) (F32.ofInt sync_count))
    (F32.ofInt (((sync_count + fail_count) % 2 ^ 32 : Nat) : Int))

/-- The smoothing step of `performSync`: the first sample is taken as it is, later samples
enter the exponential moving average `(1 - alpha) * smoothed + alpha * offset`. -/
def smooth (alpha smoothed : F32) (sync_count : Nat) (offset : Int) : F32 :=
  if sync_count = 1 then F32.ofInt offset
  else F32.add (F32.mul (F32.sub (F32.ofInt 1) alpha) smoothed) (F32.mul alpha (F32.ofInt offset))

/-- The branch of `performSync` taken when `response_ready_` is set after the wait; `now`
is the clock reading used by `getSyncedTime()` for the sync-event callback.  This is what
the source returns when its logging test `sync_count % log_interval_syncs` is defined, that
is unless `enable_logging` is set with `log_interval_syncs = 0`: there the source divides
by zero after the callbacks and never returns, and the value given here (the `%` of the
embedding returns its left operand) stands for no state of the program.  Statements about
an attempt that reads a response carry `enable_logging = true → log_interval_syncs ≠ 0` as
a hypothesis. -/
def onResponse (s2 : ESPNowTimeSync) (now : Nat) : ESPNowTimeSync × List Effect :=
  let sync_count := (s2.stats_.sync_count + 1) % 2 ^ 32
  let r := computeOffset s2.response_ s2.t4_
  let smoothed := smooth s2.config_.smoothing_alpha s2.smoothed_offset_ sync_count r.offset
  let stats : SyncStats :=
    { sync_count := sync_count
      fail_count := s2.stats_.fail_count
      last_offset_us := r.offset
      last_rtt_us := r.roundTrip
      success_rate := successRate sync_count s2.stats_.fail_count }
  let was_synchronized := s2.is_synchronized_
  let s3 := { s2 with stats_ := stats, smoothed_offset_ := smoothed,
                      current_offset_ := smoothed.toInt64,
                      is_synchronized_ := decide (3 ≤ sync_count) }
  let r4 := if s3.is_synchronized_ != was_synchronized
            then updateSyncStatus s3 s3.is_synchronized_ else (s3, [])
  let s4 := r4.1
  let event := if s4.sync_event_callback_ && s4.is_synchronized_
               then [Effect.eventCallback (getSyncedTime s4 now)] else []
  let logged := if s4.config_.enable_logging
                    && s4.stats_.sync_count % s4.config_.log_interval_syncs == 0
                then [Effect.log] else []
  (s4, r4.2 ++ event ++ logged)

/-- The branch of `performSync` taken when the wait ends with `response_ready_` clear. -/
def onTimeout (s2 : ESPNowTimeSync) : ESPNowTimeSync × List Effect :=
  let fail_count := (s2.stats_.fail_count + 1) % 2 ^ 32
  let stats : SyncStats :=
    { s2.stats_ with fail_count := fail_count
                     success_rate := successRate s2.stats_.sync_count fail_count }
  let s3 := { s2 with stats_ := stats }
  (s3, if s3.config_.enable_logging then [Effect.log] else [])

/-- Member function `performSync`: one synchronisation attempt.  The busy-wait ends with
`response_ready_` set when a message of the expected size was delivered meanwhile, and
clear (timeout) otherwise. -/
def performSync (s : ESPNowTimeSync) (env : AttemptEnv) : ESPNowTimeSync × List Effect :=
  if s.is_master_ then (s, [])
  else
    let s1 := { s with response_ready_ := false }
    let request : TimeRequest := ⟨env.t1 % 2 ^ 64⟩
    let sent := Effect.send s1.master_mac_ request.encode
    let s2 := deliver s1 env.arrivals
    let r := if s2.response_ready_ then onResponse s2 env.now else onTimeout s2
    (r.1, sent :: r.2)

/-- Member function `update` (the periodic tick): `now_ms` is the reading of `millis()` in
the interval test and `end_ms` the one stored after the attempt; the `uint32_t` difference
wraps. -/
def update (s : ESPNowTimeSync) (now_ms : Nat) (env : AttemptEnv) (end_ms : Nat) :
    ESPNowTimeSync × List Effect :=
  if !s.initialized_ || !s.sync_active_ then (s, [])
  else if !s.is_master_
      && decide (s.config_.sync_interval_ms ≤ (now_ms % 2 ^ 32 + 2 ^ 32 - s.last_sync_time_) % 2 ^ 32)
  then
    let r := performSync s env
    ({ r.1 with last_sync_time_ := end_ms % 2 ^ 32 }, r.2)
  else (s, [])

/-- A run of consecutive synchronisation attempts, with the effects of all of them. -/
def attempts (s : ESPNowTimeSync) : List AttemptEnv → ESPNowTimeSync × List Effect
  | [] => (s, [])
  | env :: rest =>
    let r := performSync s env
    let r2 := attempts r.1 rest
    (r2.1, r.2 ++ r2.2)

end ESPNowTimeSync

/-! ## Observations on inputs and effects -/

/-- The response a client attempt reads, if any: the last message of the expected size
delivered during the wait (a later delivery overwrites `response_` and `t4_`). -/
def AttemptEnv.received (env : AttemptEnv) : Option RecvMsg :=
  env.arrivals.foldl (fun acc m => if m.data.length = sizeofTimeResponse then some m else acc) none

/-- Whether the attempt completes an exchange (otherwise it times out). -/
def AttemptEnv.succeeds (env : AttemptEnv) : Bool := env.received.isSome

/-- The raw offset computed from a delivered response. -/
def RecvMsg.rawOffset (m : RecvMsg) : Int :=
  (ESPNowTimeSync.computeOffset (TimeResponse.decode m.data) (m.arrival % 2 ^ 64)).offset

/-- Number of attempts of a run that complete an exchange. -/
def successes (envs : List AttemptEnv) : Nat := (envs.filter AttemptEnv.succeeds).length

/-- Number of attempts of a run that time out. -/
def timeouts (envs : List AttemptEnv) : Nat := (envs.filter (fun e => !e.succeeds)).length

/-- Invocations of the status callback among a list of effects. -/
def statusCalls (es : List Effect) : List (Bool × Int) :=
  es.filterMap (fun e => match e with
    | Effect.statusCallback b o => some (b, o)
    | _ => none)

/-- Invocations of the sync-event callback among a list of effects. -/
def eventCalls (es : List Effect) : List Int :=
  es.filterMap (fun e => match e with
    | Effect.eventCallback t => some t
    | _ => none)

/-- The engine as the wait of an attempt leaves it: untouched without a response, and with
`t4_`, `response_` and `response_ready_` written by the receive callback otherwise. -/
def withResponse (s : ESPNowTimeSync) : Option RecvMsg → ESPNowTimeSync
  | none => s
  | some m => { s with t4_ := m.arrival % 2 ^ 64, response_ := TimeResponse.decode m.data,
                       response_ready_ := true }

/-- An attempt in which exactly the response `r` arrives from `src`, handled at clock
reading `t4`. -/
def AttemptEnv.exchange (t1 : Nat) (src : List Nat) (r : TimeResponse) (t4 now : Nat) :
    AttemptEnv :=
  { t1 := t1, arrivals := [⟨src, r.encode, t4⟩], now := now }

/-- An attempt in which nothing arrives. -/
def AttemptEnv.silent (t1 : Nat) : AttemptEnv := { t1 := t1, arrivals := [], now := 0 }

/-! ## Sequences of operations -/

/-- The operations that drive an engine: the public calls `startSync`, `stopSync` and
`update` with the clock readings and deliveries they meet, and a message handed to the
receive callback outside an attempt. -/
inductive Op where
  | start (now_ms : Nat)
  | stop
  | tick (now_ms : Nat) (env : AttemptEnv) (end_ms : Nat)
  | receive (m : RecvMsg) (send_time : Nat)
deriving DecidableEq, Repr

/-- One operation on the engine. -/
def step (s : ESPNowTimeSync) : Op → ESPNowTimeSync × List Effect
  | Op.start now_ms => s.startSync now_ms
  | Op.stop => s.stopSync
  | Op.tick now_ms env end_ms => s.update now_ms env end_ms
  | Op.receive m send_time => s.onReceiveWrapper m send_time

/-- A sequence of operations, with the effects of all of them in order. -/
def run (s : ESPNowTimeSync) : List Op → ESPNowTimeSync × List Effect
  | [] => (s, [])
  | op :: rest =>
    let r := step s op
    let r2 := run r.1 rest
    (r2.1, r.2 ++ r2.2)

/-- Whether a tick at clock reading `now_ms` finds the sync interval elapsed. -/
def due (s : ESPNowTimeSync) (now_ms : Nat) : Prop :=
  s.config_.sync_interval_ms ≤ (now_ms % 2 ^ 32 + 2 ^ 32 - s.last_sync_time_) % 2 ^ 32

instance (s : ESPNowTimeSync) (now_ms : Nat) : Decidable (due s now_ms) := by
  unfold due; infer_instance

namespace Example

/-- A link address for the master. -/
def masterMac : List Nat := [36, 111, 40, 1, 2, 3]

/-- The binary32 value `0.75`. -/
def threeQuarters : F32 := ⟨3 * 2 ^ 147⟩

/-- A constructed client engine, initialised with smoothing factor `alpha` and the
defaults otherwise. -/
def client (alpha : F32) : ESPNowTimeSync :=
  (ESPNowTimeSync.begin ESPNowTimeSync.new false (some masterMac)
    { TimeSyncConfig.default with smoothing_alpha := alpha } true true).1

/-- A completed exchange: request stamped 1000, received by the master at `1050 + d`,
answered at `1060 + d`, answer handled at 1120.  Its raw offset is `105 + d`. -/
def exchange (d : Nat) : AttemptEnv :=
  AttemptEnv.exchange 1000 masterMac ⟨1000, 1050 + d, 1060 + d⟩ 1120 1130

/-- The response message of `exchange d`. -/
def response (d : Nat) : RecvMsg :=
  ⟨masterMac, (TimeResponse.mk 1000 (1050 + d) (1060 + d)).encode, 1120⟩

/-- An attempt that times out. -/
def timeout : AttemptEnv := AttemptEnv.silent 1000

/-- The default smoothing factor `0.05f`. -/
def alpha : F32 := TimeSyncConfig.default.smoothing_alpha

/-- The sequence start, three ticks with a completed exchange each, stop, start, and one
more tick with a completed exchange; the ticks are 1000 ms apart, the default interval. -/
def restartScenario : List Op :=
  [Op.start 0, Op.tick 1000 (exchange 0) 1001, Op.tick 2001 (exchange 1) 2002,
   Op.tick 3002 (exchange 2) 3003, Op.stop, Op.start 4000, Op.tick 5000 (exchange 3) 5001]

/-- A constructed master engine, initialised with the defaults. -/
def master : ESPNowTimeSync :=
  (ESPNowTimeSync.begin ESPNowTimeSync.new true none TimeSyncConfig.default true true).1

end Example

/-! ## Further observations -/

/-- Transmissions requested from the transport among a list of effects. -/
def sendCalls (es : List Effect) : List (List Nat × List Nat) :=
  es.filterMap (fun e => match e with
    | Effect.send peer payload => some (peer, payload)
    | _ => none)

/-- Peer registrations requested from the transport among a list of effects. -/
def peerCalls (es : List Effect) : List (List Nat) :=
  es.filterMap (fun e => match e with
    | Effect.registerPeer mac => some mac
    | _ => none)

/-- Whether an operation is a tick or an incoming message. -/
def Op.isTickOrReceive : Op → Bool
  | Op.tick _ _ _ => true
  | Op.receive _ _ => true
  | _ => false

/-- The engine with its receive buffer (`response_`, `t4_`) and the pending-response flag
blanked. -/
def forgetBuffer (s : ESPNowTimeSync) : ESPNowTimeSync :=
  { s with response_ := ⟨0, 0, 0⟩, t4_ := 0, response_ready_ := false }

/-- The engine with the contents of its receive buffer (`response_`, `t4_`) blanked. -/
def forgetPayload (s : ESPNowTimeSync) : ESPNowTimeSync :=
  { s with response_ := ⟨0, 0, 0⟩, t4_ := 0 }

/-- The size a message must have to be handled by an engine of the given role. -/
def expectedSize (is_master : Bool) : Nat :=
  if is_master then sizeofTimeRequest else sizeofTimeResponse

/-! ## Pulse scheduler (`ESPNowTimeSyncLED.h`, `ESPNowTimeSyncLED.cpp`) -/

/-- The members of class `ESPNowTimeSyncLED` (a timer member holds `true` once its handle
is created), followed by the state of the collaborators it drives: whether the output
pin is HIGH, and for each of the two one-shot timers the timeout it is armed with, if it
is armed. -/
structure ESPNowTimeSyncLED where
  led_pin_ : Int
  pulse_width_us_ : Nat
  interval_us_ : Nat
  active_ : Bool
  initialized_ : Bool
  pulse_timer_ : Bool
  off_timer_ : Bool
  pin_high : Bool
  pulse_armed : Option Nat
  off_armed : Option Nat
deriving DecidableEq, Repr

/-- The collaborator call `esp_timer_start_once` on one timer: it arms a created timer
that is not armed, and fails without effect otherwise. -/
def timerStartOnce (created : Bool) (armed : Option Nat) (timeout_us : Nat) : Option Nat :=
  if created && armed.isNone then some timeout_us else armed

/-- The delay computed by `scheduleNextPulse` from the synchronised time and the
interval: the local variables `current_interval`, `next_interval` and `delay_us`.  The
`/` of C++ truncates toward zero and `int64_t` arithmetic wraps; with `interval_us = 0`
the source divides by zero. -/
def nextPulseDelay (synced_us : Int) (interval_us : Nat) : Int :=
  let current_interval := Int.tdiv synced_us interval_us
  let next_interval := wrapInt64 ((current_interval + 1) * interval_us)
  let delay_us := wrapInt64 (next_interval - synced_us)
  if delay_us ≤ 0 then wrapInt64 (delay_us + interval_us) else delay_us

/-- Specification of `scheduleNext()`, in the words of the specification:
`nextBoundary = ceil(syncedNow / interval_us) * interval_us`,
`delay = nextBoundary - syncedNow`, plus one full interval when `delay <= 0`.  The ceiling
of the quotient is `-((-syncedNow) / interval_us)` with the flooring division of `Int`. -/
def specNextPulseDelay (syncedNow : Int) (interval_us : Nat) : Int :=
  let nextBoundary := -((-syncedNow) / (interval_us : Int)) * interval_us
  let delay := nextBoundary - syncedNow
  if delay ≤ 0 then delay + interval_us else delay

namespace ESPNowTimeSyncLED

/-- The constructor, with the default pin 2 when none is given. -/
def new (ledPin : Int) : ESPNowTimeSyncLED :=
  { led_pin_ := ledPin
    pulse_width_us_ := 500
    interval_us_ := 1000000
    active_ := false
    initialized_ := false
    pulse_timer_ := false
    off_timer_ := false
    pin_high := false
    pulse_armed := none
    off_armed := none }

/-- Member function `setPulseWidth`; the parameter is `uint32_t`. -/
def setPulseWidth (l : ESPNowTimeSyncLED) (pulse_us : Nat) : ESPNowTimeSyncLED :=
  { l with pulse_width_us_ := pulse_us % 2 ^ 32 }

/-- Member function `setInterval`; the parameter is `uint32_t`. -/
def setInterval (l : ESPNowTimeSyncLED) (interval_us : Nat) : ESPNowTimeSyncLED :=
  { l with interval_us_ := interval_us % 2 ^ 32 }

/-- Member function `isRunning`. -/
def isRunning (l : ESPNowTimeSyncLED) : Bool := l.active_

/-- Member function `begin`: drives the pin LOW, creates the two timers and registers the
status callback with the engine. -/
def begin (l : ESPNowTimeSyncLED) (e : ESPNowTimeSync) : ESPNowTimeSyncLED × ESPNowTimeSync :=
  if l.initialized_ then (l, e)
  else
    ({ l with pin_high := false, pulse_timer_ := true, off_timer_ := true,
              initialized_ := true },
     e.onSyncStatus)

/-- Member function `scheduleNextPulse`, with `now_us` the reading of
`esp_timer_get_time()`. -/
def scheduleNextPulse (l : ESPNowTimeSyncLED) (e : ESPNowTimeSync) (now_us : Nat) :
    ESPNowTimeSyncLED :=
  if !l.active_ || !e.isSynchronized then l
  else
    let synced_us := wrapInt64 (toInt64 now_us + e.getOffset)
    let delay_us := nextPulseDelay synced_us l.interval_us_
    { l with pulse_armed := timerStartOnce l.pulse_timer_ l.pulse_armed (toUInt64 delay_us) }

/-- Member function `start`. -/
def start (l : ESPNowTimeSyncLED) (e : ESPNowTimeSync) (now_us : Nat) : ESPNowTimeSyncLED :=
  if !l.initialized_ || l.active_ then l
  else
    let l1 := { l with active_ := true }
    if e.isSynchronized then scheduleNextPulse l1 e now_us else l1

/-- Member function `stop`. -/
def stop (l : ESPNowTimeSyncLED) : ESPNowTimeSyncLED :=
  if !l.active_ then l
  else
    let l1 := { l with active_ := false, pin_high := false }
    let l2 := if l1.pulse_timer_ then { l1 with pulse_armed := none } else l1
    if l2.off_timer_ then { l2 with off_armed := none } else l2

/-- Member function `onSyncStatus`, the handler registered with the engine. -/
def onSyncStatus (l : ESPNowTimeSyncLED) (e : ESPNowTimeSync) (synchronized : Bool)
    (_offset : Int) (now_us : Nat) : ESPNowTimeSyncLED :=
  if synchronized && l.active_ && l.pulse_armed.isNone then scheduleNextPulse l e now_us
  else l

/-- Static member `onPulseTimer`, the body of the pulse timer callback. -/
def onPulseTimer (l : ESPNowTimeSyncLED) (e : ESPNowTimeSync) (now_us : Nat) :
    ESPNowTimeSyncLED :=
  let l1 := { l with pin_high := true }
  let l2 := { l1 with off_armed := timerStartOnce l1.off_timer_ l1.off_armed l1.pulse_width_us_ }
  scheduleNextPulse l2 e now_us

/-- Static member `onOffTimer`, the body of the off timer callback. -/
def onOffTimer (l : ESPNowTimeSyncLED) : ESPNowTimeSyncLED :=
  { l with pin_high := false }

end ESPNowTimeSyncLED

/-! ## Further concrete inputs -/

namespace Example

/-- A master engine with the pulse scheduler attached, started: the engine is Synchronized
with offset 0. -/
def startedMaster : ESPNowTimeSync :=
  ((ESPNowTimeSyncLED.begin (ESPNowTimeSyncLED.new 2) master).2.startSync 0).1

/-- The pulse scheduler attached to `startedMaster`, started at clock reading 2300000 and
then stopped. -/
def stoppedLed : ESPNowTimeSyncLED :=
  (((ESPNowTimeSyncLED.begin (ESPNowTimeSyncLED.new 2) master).1).start startedMaster
    2300000).stop

/-- A stray response: 24 bytes that no request asked for. -/
def strayResponse : RecvMsg :=
  ⟨masterMac, (TimeResponse.mk 7 8 9).encode, 500⟩

/-- An 8-byte request stamped 1000 from a client, received at clock reading 5000. -/
def request : RecvMsg :=
  ⟨[10, 20, 30, 40, 50, 60], (TimeRequest.mk 1000).encode, 5000⟩

/-- A completed exchange whose response carries the timestamps 2600100, 1300040 and
1300040 and is handled at clock reading 220: the echoed t1 is not the one of the request,
and the raw offset computed from it is -2600000. -/
def behindExchange : AttemptEnv :=
  AttemptEnv.exchange 100 masterMac ⟨2600100, 1300040, 1300040⟩ 220 230

/-- A client (smoothing factor 0.75) after three such exchanges: Synchronized, with offset
-2600000. -/
def behindClient : ESPNowTimeSync :=
  (ESPNowTimeSync.attempts (client threeQuarters)
    [behindExchange, behindExchange, behindExchange]).1

/-- A configuration that differs from the default one. -/
def otherConfig : TimeSyncConfig :=
  { TimeSyncConfig.default with channel := 6, sync_interval_ms := 250 }

end Example

/-! ## Auxiliary lemmas -/

open ESPNowTimeSync

theorem F32.bitLengthAux_spec (fuel n : Nat) (h : n ≤ fuel) :
    n < 2 ^ F32.bitLengthAux fuel n ∧ (n ≠ 0 → 2 ^ (F32.bitLengthAux fuel n - 1) ≤ n) := by
  induction fuel generalizing n with
  | zero =>
    have : n = 0 := by omega
    subst this
    simp [F32.bitLengthAux]
  | succ fuel ih =>
    unfold F32.bitLengthAux
    by_cases h0 : n = 0
    · simp [h0]
    · rw [if_neg h0]
      obtain ⟨ih1, ih2⟩ := ih (n / 2) (by omega)
      refine ⟨?_, fun _ => ?_⟩
      · rw [pow_succ]; omega
      · rw [Nat.add_sub_cancel]
        by_cases h2 : n / 2 = 0
        · have hb : F32.bitLengthAux fuel (n / 2) = 0 := by
            rw [h2]; cases fuel <;> simp [F32.bitLengthAux]
          rw [hb]; simp; omega
        · have := ih2 h2
          have hpos : 0 < F32.bitLengthAux fuel (n / 2) := by
            by_contra hc
            have hz : F32.bitLengthAux fuel (n / 2) = 0 := by omega
            rw [hz] at ih1
            simp at ih1
            exact h2 ih1
          have e : F32.bitLengthAux fuel (n / 2) = (F32.bitLengthAux fuel (n / 2) - 1) + 1 := by
            omega
          rw [e, pow_succ]
          omega

theorem F32.bitLength_spec (n : Nat) :
    n < 2 ^ F32.bitLength n ∧ (n ≠ 0 → 2 ^ (F32.bitLength n - 1) ≤ n) :=
  F32.bitLengthAux_spec n n le_rfl

theorem F32.roundNat_of_dvd (n d : Nat) (hd : 0 < d) (h : d ∣ n) :
    F32.roundNat n d * d = n := by
  unfold F32.roundNat
  have hr : n % d = 0 := Nat.mod_eq_zero_of_dvd h
  simp only [hr, Nat.mul_zero, hd, if_true]
  exact Nat.div_mul_cancel h

/-- Integers of magnitude at most `2^24` convert to `float` without rounding. -/
theorem F32.roundMag_small (a : Nat) (h : a ≤ 2 ^ 24) :
    F32.roundMag (a * F32.quantum) 1 = a * F32.quantum := by
  unfold F32.roundMag
  simp only [Nat.div_one, Nat.one_mul]
  apply F32.roundNat_of_dvd _ _ (by positivity)
  obtain ⟨hlt, hge⟩ := F32.bitLength_spec (a * F32.quantum)
  by_cases ha : a = 0
  · simp [ha]
  have hne : a * F32.quantum ≠ 0 := by
    simp [F32.quantum, ha]
  have hge := hge hne
  set L := F32.bitLength (a * F32.quantum) with hL
  -- 2^(L-1) ≤ a * 2^149 ≤ 2^173, so L ≤ 174
  have hub : a * F32.quantum ≤ 2 ^ 173 := by
    have : a * F32.quantum ≤ 2 ^ 24 * 2 ^ 149 := Nat.mul_le_mul_right _ h
    simpa [F32.quantum, ← pow_add] using this
  have hL174 : L - 1 ≤ 173 := by
    by_contra hc
    have : 2 ^ 174 ≤ 2 ^ (L - 1) := Nat.pow_le_pow_right (by norm_num) (by omega)
    have h2 : (2 : Nat) ^ 173 < 2 ^ 174 := by norm_num
    omega
  by_cases hsh : L - 24 ≤ 149
  · exact Dvd.dvd.mul_left (pow_dvd_pow 2 hsh) a
  · have hLe : L - 24 = 150 := by omega
    have hL1 : L - 1 = 173 := by omega
    rw [hL1] at hge
    have : a * F32.quantum = 2 ^ 173 := le_antisymm hub hge
    rw [hLe, this]
    exact pow_dvd_pow 2 (by norm_num)

theorem F32.ofInt_units (n : Int) (h : n.natAbs ≤ 2 ^ 24) :
    (F32.ofInt n).units = n * 2 ^ 149 := by
  have hq : (0 : Int) < (F32.quantum : Int) := by
    have : 0 < F32.quantum := by decide
    exact_mod_cast this
  have hq2 : ((F32.quantum : Nat) : Int) = 2 ^ 149 := by
    simp [F32.quantum]
  have habs : (n * (F32.quantum : Int)).natAbs = n.natAbs * F32.quantum := by
    rw [Int.natAbs_mul, Int.natAbs_ofNat]
  unfold F32.ofInt F32.round
  rw [habs, F32.roundMag_small _ h]
  by_cases hneg : n * (F32.quantum : Int) < 0
  · rw [if_pos hneg]
    have hn : n < 0 := by
      by_contra hc
      have : 0 ≤ n * (F32.quantum : Int) := mul_nonneg (by omega) hq.le
      omega
    have hcast : (n.natAbs : Int) = -n := by omega
    show -((n.natAbs * F32.quantum : Nat) : Int) = n * 2 ^ 149
    rw [Nat.cast_mul, hq2, hcast]; ring
  · rw [if_neg hneg]
    have hn : 0 ≤ n := by
      by_contra hc
      have : n * (F32.quantum : Int) < 0 := mul_neg_of_neg_of_pos (by omega) hq
      exact hneg this
    have hcast : (n.natAbs : Int) = n := by omega
    show ((n.natAbs * F32.quantum : Nat) : Int) = n * 2 ^ 149
    rw [Nat.cast_mul, hq2, hcast]

theorem F32.toInt64_ofInt (n : Int) (h : n.natAbs ≤ 2 ^ 24) : (F32.ofInt n).toInt64 = n := by
  unfold F32.toInt64
  rw [F32.ofInt_units n h]
  have hq2 : ((F32.quantum : Nat) : Int) = 2 ^ 149 := by
    simp [F32.quantum]
  rw [hq2]
  exact Int.mul_tdiv_cancel _ (by norm_num)

theorem F32.toRat_ofInt (n : Int) (h : n.natAbs ≤ 2 ^ 24) : (F32.ofInt n).toRat = n := by
  unfold F32.toRat
  rw [F32.ofInt_units n h]
  simp [F32.quantum]

theorem F32.ext_units (x y : F32) (h : x.units = y.units) : x = y := by
  cases x; cases y; simpa using h

/-- A quotient `a * 2^149 * d / d` with `a ≤ 2^24` needs no rounding. -/
theorem F32.roundMag_exact (a d : Nat) (hd : 0 < d) (h : a ≤ 2 ^ 24) :
    F32.roundMag (a * F32.quantum * d) d = a * F32.quantum := by
  have hsmall := F32.roundMag_small a h
  unfold F32.roundMag at hsmall ⊢
  simp only [Nat.div_one, Nat.one_mul] at hsmall
  simp only [Nat.mul_div_cancel _ hd]
  set sh := F32.bitLength (a * F32.quantum) - 24 with hsh
  have hdvd : 2 ^ sh ∣ a * F32.quantum := by
    rw [← hsmall]; exact Dvd.intro_left _ rfl
  have hD : d * 2 ^ sh ∣ a * F32.quantum * d := by
    rw [Nat.mul_comm (a * F32.quantum) d]
    exact Nat.mul_dvd_mul_left d hdvd
  have key := F32.roundNat_of_dvd (a * F32.quantum * d) (d * 2 ^ sh) (by positivity) hD
  have hmul : F32.roundNat (a * F32.quantum * d) (d * 2 ^ sh) * 2 ^ sh * d
      = a * F32.quantum * d := by
    calc F32.roundNat (a * F32.quantum * d) (d * 2 ^ sh) * 2 ^ sh * d
        = F32.roundNat (a * F32.quantum * d) (d * 2 ^ sh) * (d * 2 ^ sh) := by ring
      _ = a * F32.quantum * d := key
  exact Nat.eq_of_mul_eq_mul_right hd hmul

theorem F32.round_exact (a d : Nat) (hd : 0 < d) (h : a ≤ 2 ^ 24) :
    F32.round (((a * F32.quantum * d : Nat) : Int)) d = F32.ofInt (a : Int) := by
  have hq : ((F32.quantum : Nat) : Int) = 2 ^ 149 := by simp [F32.quantum]
  have h1 : (F32.ofInt (a : Int)).units = (a : Int) * 2 ^ 149 :=
    F32.ofInt_units _ (by simpa using h)
  have h2 : F32.round (((a * F32.quantum * d : Nat) : Int)) d
      = ⟨((a * F32.quantum : Nat) : Int)⟩ := by
    unfold F32.round
    rw [if_neg (by exact not_lt.mpr (Int.natCast_nonneg _)), Int.natAbs_ofNat,
      F32.roundMag_exact a d hd h]
  rw [h2]
  apply F32.ext_units
  rw [h1]
  show ((a * F32.quantum : Nat) : Int) = (a : Int) * 2 ^ 149
  rw [Nat.cast_mul, hq]

/-- The success-rate expression is exact when the quotient is a whole number and the
operands are small enough to be held without rounding. -/
theorem successRate_exact (sync_count fail_count k : Nat)
    (hk : 100 * sync_count = k * (sync_count + fail_count))
    (hpos : 0 < sync_count + fail_count) (hs : 100 * sync_count ≤ 2 ^ 24)
    (hn : sync_count + fail_count ≤ 2 ^ 24) :
    successRate sync_count fail_count = F32.ofInt (k : Int) := by
  have hq : ((F32.quantum : Nat) : Int) = 2 ^ 149 := by simp [F32.quantum]
  have hQ : 0 < F32.quantum := by decide
  have hsc : sync_count ≤ 2 ^ 24 := by omega
  have hmod : (sync_count + fail_count) % 2 ^ 32 = sync_count + fail_count :=
    Nat.mod_eq_of_lt (by omega)
  have u100 : (F32.ofInt 100).units = 100 * 2 ^ 149 := F32.ofInt_units 100 (by decide)
  have usc : (F32.ofInt (sync_count : Int)).units = (sync_count : Int) * 2 ^ 149 :=
    F32.ofInt_units _ (by simpa using hsc)
  have un : (F32.ofInt ((sync_count + fail_count : Nat) : Int)).units
      = ((sync_count + fail_count : Nat) : Int) * 2 ^ 149 :=
    F32.ofInt_units _ (by simpa using hn)
  have hmul : F32.mul (F32.ofInt 100) (F32.ofInt (sync_count : Int))
      = F32.ofInt ((100 * sync_count : Nat) : Int) := by
    have e : (100 * 2 ^ 149 : Int) * ((sync_count : Int) * 2 ^ 149)
        = ((100 * sync_count * F32.quantum * F32.quantum : Nat) : Int) := by
      rw [Nat.cast_mul, Nat.cast_mul, hq]; push_cast; ring
    unfold F32.mul
    rw [u100, usc, e]
    exact F32.round_exact (100 * sync_count) F32.quantum hQ hs
  have uprod : (F32.ofInt ((100 * sync_count : Nat) : Int)).units
      = ((100 * sync_count : Nat) : Int) * 2 ^ 149 :=
    F32.ofInt_units _ (by simpa using hs)
  have hkle : k ≤ 2 ^ 24 := by
    have : k * 1 ≤ k * (sync_count + fail_count) := Nat.mul_le_mul_left k hpos
    omega
  unfold successRate
  rw [hmod, hmul]
  unfold F32.div
  rw [uprod, un]
  have hsign : (((sync_count + fail_count : Nat) : Int) * 2 ^ 149).sign = 1 :=
    Int.sign_eq_one_of_pos (mul_pos (by exact_mod_cast hpos) (by positivity))
  have habs : (((sync_count + fail_count : Nat) : Int) * 2 ^ 149).natAbs
      = (sync_count + fail_count) * F32.quantum := by
    rw [← hq, ← Nat.cast_mul, Int.natAbs_ofNat]
  have e2 : ((100 * sync_count : Nat) : Int) * 2 ^ 149 * ((F32.quantum : Nat) : Int) * 1
      = ((k * F32.quantum * ((sync_count + fail_count) * F32.quantum) : Nat) : Int) := by
    rw [hk, hq]; push_cast; rw [hq]; ring
  rw [hsign, habs, e2]
  exact F32.round_exact k ((sync_count + fail_count) * F32.quantum) (Nat.mul_pos hpos hQ) hkle

theorem toInt64_toUInt64 (i : Int) (h : InInt64 i) : toInt64 (toUInt64 i) = i := by
  unfold InInt64 at h
  unfold toInt64 toUInt64
  have h0 : (0 : Int) ≤ i % 2 ^ 64 := Int.emod_nonneg _ (by norm_num)
  have h1 : i % 2 ^ 64 < 2 ^ 64 := Int.emod_lt_of_pos _ (by norm_num)
  have h2 : ((i % 2 ^ 64).toNat : Int) = i % 2 ^ 64 := Int.toNat_of_nonneg h0
  have h3 : (i % 2 ^ 64).toNat % 2 ^ 64 = (i % 2 ^ 64).toNat := by
    apply Nat.mod_eq_of_lt
    omega
  rw [h3]
  split_ifs with hlt <;> omega

theorem wrapInt64_of_inInt64 (i : Int) (h : InInt64 i) : wrapInt64 i = i :=
  toInt64_toUInt64 i h

theorem decodeLE_encodeU64 (n : Nat) (h : n < 2 ^ 64) : decodeLE (encodeU64 n) = n := by
  simp only [encodeU64, decodeLE]
  omega

theorem TimeResponse.decode_encode (r : TimeResponse) (h1 : r.t1 < 2 ^ 64)
    (h2 : r.t2_recv < 2 ^ 64) (h3 : r.t3_send < 2 ^ 64) :
    TimeResponse.decode r.encode = r := by
  cases r
  simp only [TimeResponse.decode, TimeResponse.encode, encodeU64, List.cons_append,
    List.nil_append, List.take, List.drop, decodeLE, TimeResponse.mk.injEq] at *
  refine ⟨?_, ?_, ?_⟩ <;> omega

theorem TimeResponse.length_encode (r : TimeResponse) : r.encode.length = 24 := by
  simp [TimeResponse.encode, encodeU64]

theorem deliver_withResponse (s : ESPNowTimeSync) (hc : s.is_master_ = false)
    (ms : List RecvMsg) (acc : Option RecvMsg) :
    deliver (withResponse s acc) ms
      = withResponse s (ms.foldl
          (fun acc m => if m.data.length = sizeofTimeResponse then some m else acc) acc) := by
  induction ms generalizing acc with
  | nil => rfl
  | cons m ms ih =>
    have hstep : (onReceiveWrapper (withResponse s acc) m m.arrival).1
        = withResponse s (if m.data.length = sizeofTimeResponse then some m else acc) := by
      by_cases hl : m.data.length = sizeofTimeResponse
      · cases acc <;> simp [onReceiveWrapper, processTimeResponse, withResponse, hc, hl]
      · cases acc <;> simp [onReceiveWrapper, processTimeResponse, withResponse, hc, hl]
    simp only [deliver, List.foldl_cons] at ih ⊢
    rw [hstep]
    exact ih _

theorem deliver_client (s : ESPNowTimeSync) (hc : s.is_master_ = false) (env : AttemptEnv) :
    deliver s env.arrivals = withResponse s env.received := by
  have h := deliver_withResponse s hc env.arrivals none
  simpa [withResponse, AttemptEnv.received] using h

/-- An attempt of a client that reads the response `m` runs the response branch. -/
theorem performSync_of_received (s : ESPNowTimeSync) (env : AttemptEnv) (m : RecvMsg)
    (hc : s.is_master_ = false) (hr : env.received = some m) :
    performSync s env
      = ((onResponse (withResponse { s with response_ready_ := false } (some m)) env.now).1,
         Effect.send s.master_mac_ (TimeRequest.encode ⟨env.t1 % 2 ^ 64⟩)
           :: (onResponse (withResponse { s with response_ready_ := false } (some m)) env.now).2) := by
  unfold performSync
  rw [if_neg (by simp [hc])]
  simp only []
  rw [deliver_client { s with response_ready_ := false } hc env, hr]
  simp [withResponse]

/-- An attempt of a client during which no response arrives runs the timeout branch. -/
theorem performSync_of_timeout (s : ESPNowTimeSync) (env : AttemptEnv)
    (hc : s.is_master_ = false) (hr : env.received = none) :
    performSync s env
      = ((onTimeout { s with response_ready_ := false }).1,
         Effect.send s.master_mac_ (TimeRequest.encode ⟨env.t1 % 2 ^ 64⟩)
           :: (onTimeout { s with response_ready_ := false }).2) := by
  unfold performSync
  rw [if_neg (by simp [hc])]
  simp only []
  rw [deliver_client { s with response_ready_ := false } hc env, hr]
  simp [withResponse]

theorem computeOffset_exact (t1 t2 t3 t4 : Nat)
    (hrt : InInt64 ((t4 : Int) - t1)) (hmp : InInt64 ((t3 : Int) - t2))
    (hd : InInt64 (((t4 : Int) - t1) - ((t3 : Int) - t2)))
    (ho : InInt64 ((t2 : Int) + Int.tdiv (((t4 : Int) - t1) - ((t3 : Int) - t2)) 2 - t1)) :
    computeOffset ⟨t1, t2, t3⟩ t4
      = ⟨(t4 : Int) - t1, (t3 : Int) - t2, Int.tdiv (((t4 : Int) - t1) - ((t3 : Int) - t2)) 2,
         (t2 : Int) + Int.tdiv (((t4 : Int) - t1) - ((t3 : Int) - t2)) 2 - t1⟩ := by
  simp only [computeOffset]
  rw [toInt64_toUInt64 _ hrt, toInt64_toUInt64 _ hmp, wrapInt64_of_inInt64 _ hd,
    toInt64_toUInt64 _ ho]

theorem performSync_stats_of_received (s : ESPNowTimeSync) (env : AttemptEnv) (m : RecvMsg)
    (hc : s.is_master_ = false) (hr : env.received = some m) :
    (performSync s env).1.stats_.last_rtt_us
        = (computeOffset (TimeResponse.decode m.data) (m.arrival % 2 ^ 64)).roundTrip
      ∧ (performSync s env).1.stats_.last_offset_us = m.rawOffset := by
  rw [performSync_of_received s env m hc hr]
  simp only [onResponse, withResponse, RecvMsg.rawOffset, updateSyncStatus]
  split_ifs <;> simp

/-- The engine after the response branch, field by field. -/
theorem onResponse_fst (s2 : ESPNowTimeSync) (now : Nat) :
    (onResponse s2 now).1
      = { s2 with
          stats_ :=
            { sync_count := (s2.stats_.sync_count + 1) % 2 ^ 32
              fail_count := s2.stats_.fail_count
              last_offset_us := (computeOffset s2.response_ s2.t4_).offset
              last_rtt_us := (computeOffset s2.response_ s2.t4_).roundTrip
              success_rate :=
                successRate ((s2.stats_.sync_count + 1) % 2 ^ 32) s2.stats_.fail_count }
          smoothed_offset_ :=
            smooth s2.config_.smoothing_alpha s2.smoothed_offset_
              ((s2.stats_.sync_count + 1) % 2 ^ 32) (computeOffset s2.response_ s2.t4_).offset
          current_offset_ :=
            (smooth s2.config_.smoothing_alpha s2.smoothed_offset_
              ((s2.stats_.sync_count + 1) % 2 ^ 32)
              (computeOffset s2.response_ s2.t4_).offset).toInt64
          is_synchronized_ := decide (3 ≤ (s2.stats_.sync_count + 1) % 2 ^ 32) } := by
  simp only [onResponse, updateSyncStatus]
  split_ifs <;> rfl

/-- The engine after an attempt of a client that reads the response `m`. -/
theorem performSync_fst_of_received (s : ESPNowTimeSync) (env : AttemptEnv) (m : RecvMsg)
    (hc : s.is_master_ = false) (hr : env.received = some m) :
    (performSync s env).1
      = { s with
          response_ready_ := true
          t4_ := m.arrival % 2 ^ 64
          response_ := TimeResponse.decode m.data
          stats_ :=
            { sync_count := (s.stats_.sync_count + 1) % 2 ^ 32
              fail_count := s.stats_.fail_count
              last_offset_us := m.rawOffset
              last_rtt_us :=
                (computeOffset (TimeResponse.decode m.data) (m.arrival % 2 ^ 64)).roundTrip
              success_rate :=
                successRate ((s.stats_.sync_count + 1) % 2 ^ 32) s.stats_.fail_count }
          smoothed_offset_ :=
            smooth s.config_.smoothing_alpha s.smoothed_offset_
              ((s.stats_.sync_count + 1) % 2 ^ 32) m.rawOffset
          current_offset_ :=
            (smooth s.config_.smoothing_alpha s.smoothed_offset_
              ((s.stats_.sync_count + 1) % 2 ^ 32) m.rawOffset).toInt64
          is_synchronized_ := decide (3 ≤ (s.stats_.sync_count + 1) % 2 ^ 32) } := by
  rw [performSync_of_received s env m hc hr, onResponse_fst]
  rfl

/-- The engine after an attempt of a client during which no response arrives. -/
theorem performSync_fst_of_timeout (s : ESPNowTimeSync) (env : AttemptEnv)
    (hc : s.is_master_ = false) (hr : env.received = none) :
    (performSync s env).1
      = { s with
          response_ready_ := false
          stats_ :=
            { s.stats_ with
              fail_count := (s.stats_.fail_count + 1) % 2 ^ 32
              success_rate :=
                successRate s.stats_.sync_count ((s.stats_.fail_count + 1) % 2 ^ 32) } } := by
  rw [performSync_of_timeout s env hc hr]
  rfl

theorem attempts_append (s : ESPNowTimeSync) (xs ys : List AttemptEnv) :
    attempts s (xs ++ ys)
      = ((attempts (attempts s xs).1 ys).1, (attempts s xs).2 ++ (attempts (attempts s xs).1 ys).2) := by
  induction xs generalizing s with
  | nil => simp [attempts]
  | cons x xs ih => simp [attempts, ih, List.append_assoc]

theorem attempts_snoc_fst (s : ESPNowTimeSync) (envs : List AttemptEnv) (env : AttemptEnv) :
    (attempts s (envs ++ [env])).1 = (performSync (attempts s envs).1 env).1 := by
  rw [attempts_append]
  simp [attempts]

theorem successes_snoc (envs : List AttemptEnv) (env : AttemptEnv) :
    successes (envs ++ [env]) = successes envs + (if env.succeeds then 1 else 0) := by
  unfold successes
  rw [List.filter_append]
  by_cases h : env.succeeds <;> simp [List.filter, h]

theorem timeouts_snoc (envs : List AttemptEnv) (env : AttemptEnv) :
    timeouts (envs ++ [env]) = timeouts envs + (if env.succeeds then 0 else 1) := by
  unfold timeouts
  rw [List.filter_append]
  by_cases h : env.succeeds <;> simp [List.filter, h]

/-- What a run of attempts of a client keeps and counts: the role, the configuration, the
registered callbacks, and the two counters modulo `2^32`. -/
theorem attempts_invariants (s : ESPNowTimeSync) (hc : s.is_master_ = false)
    (envs : List AttemptEnv) :
    (attempts s envs).1.is_master_ = false
    ∧ (attempts s envs).1.config_ = s.config_
    ∧ (attempts s envs).1.sync_status_callback_ = s.sync_status_callback_
    ∧ (attempts s envs).1.sync_event_callback_ = s.sync_event_callback_
    ∧ (attempts s envs).1.stats_.sync_count
        = (if successes envs = 0 then s.stats_.sync_count
           else (s.stats_.sync_count + successes envs) % 2 ^ 32)
    ∧ (attempts s envs).1.stats_.fail_count
        = (if timeouts envs = 0 then s.stats_.fail_count
           else (s.stats_.fail_count + timeouts envs) % 2 ^ 32) := by
  induction envs using List.reverseRecOn with
  | nil => simp [attempts, successes, timeouts, hc]
  | append_singleton envs env ih =>
    obtain ⟨h1, h2, h3, h4, h5, h6⟩ := ih
    rw [attempts_snoc_fst, successes_snoc, timeouts_snoc]
    cases hr : env.received with
    | none =>
      have hs : env.succeeds = false := by simp [AttemptEnv.succeeds, hr]
      rw [performSync_fst_of_timeout _ env h1 hr]
      simp only [hs, h1, h2, h3, h4, h5, h6]
      refine ⟨trivial, trivial, trivial, trivial, by simp, ?_⟩
      simp only [Bool.false_eq_true, if_false]
      rw [if_neg (Nat.succ_ne_zero _)]
      by_cases h0 : timeouts envs = 0
      · simp [h0]
      · rw [if_neg h0]; omega
    | some m =>
      have hs : env.succeeds = true := by simp [AttemptEnv.succeeds, hr]
      rw [performSync_fst_of_received _ env m h1 hr]
      simp only [hs, h1, h2, h3, h4, h5, h6]
      refine ⟨trivial, trivial, trivial, trivial, ?_, by simp⟩
      simp only [if_true]
      rw [if_neg (Nat.succ_ne_zero _)]
      by_cases h0 : successes envs = 0
      · simp [h0]
      · rw [if_neg h0]; omega

/-! ## C1: the offset computation -/

/-- C1: for a completed exchange with response timestamps t1, t2_recv, t3_send and arrival
time t4 whose four quantities stay in the int64 range, on an engine whose logging test does
not divide by zero (log_interval_syncs is not 0 when logging is enabled), performSync computes
roundTrip = t4 - t1, masterProcessing = t3_send - t2_recv,
networkDelay = (roundTrip - masterProcessing) / 2 with the division truncating, and
offset = t2_recv + networkDelay - t1, and stores last_rtt_us = roundTrip and
last_offset_us = offset. -/
theorem performSync_offset_formula (s : ESPNowTimeSync) (env : AttemptEnv) (m : RecvMsg)
    (t1 t2_recv t3_send t4 : Nat)
    (hc : s.is_master_ = false)
    (hlog : s.config_.enable_logging = true → s.config_.log_interval_syncs ≠ 0)
    (hr : env.received = some m)
    (hdata : m.data = (TimeResponse.mk t1 t2_recv t3_send).encode) (harr : m.arrival = t4)
    (h1 : t1 < 2 ^ 64) (h2 : t2_recv < 2 ^ 64) (h3 : t3_send < 2 ^ 64) (h4 : t4 < 2 ^ 64)
    (hrt : InInt64 ((t4 : Int) - t1)) (hmp : InInt64 ((t3_send : Int) - t2_recv))
    (hd : InInt64 (((t4 : Int) - t1) - ((t3_send : Int) - t2_recv)))
    (ho : InInt64 ((t2_recv : Int)
            + Int.tdiv (((t4 : Int) - t1) - ((t3_send : Int) - t2_recv)) 2 - t1)) :
    (computeOffset ⟨t1, t2_recv, t3_send⟩ t4).roundTrip = (t4 : Int) - t1
    ∧ (computeOffset ⟨t1, t2_recv, t3_send⟩ t4).masterProcessing = (t3_send : Int) - t2_recv
    ∧ (computeOffset ⟨t1, t2_recv, t3_send⟩ t4).networkDelay
        = Int.tdiv (((t4 : Int) - t1) - ((t3_send : Int) - t2_recv)) 2
    ∧ (computeOffset ⟨t1, t2_recv, t3_send⟩ t4).offset
        = (t2_recv : Int) + Int.tdiv (((t4 : Int) - t1) - ((t3_send : Int) - t2_recv)) 2 - t1
    ∧ (performSync s env).1.stats_.last_rtt_us = (t4 : Int) - t1
    ∧ (performSync s env).1.stats_.last_offset_us
        = (t2_recv : Int) + Int.tdiv (((t4 : Int) - t1) - ((t3_send : Int) - t2_recv)) 2 - t1 := by
  have hco := computeOffset_exact t1 t2_recv t3_send t4 hrt hmp hd ho
  have hst := performSync_stats_of_received s env m hc hr
  have hdec : TimeResponse.decode m.data = ⟨t1, t2_recv, t3_send⟩ := by
    rw [hdata]; exact TimeResponse.decode_encode _ h1 h2 h3
  have hmod : m.arrival % 2 ^ 64 = t4 := by rw [harr]; exact Nat.mod_eq_of_lt h4
  rw [RecvMsg.rawOffset, hdec, hmod, hco] at hst
  rw [hco]
  exact ⟨rfl, rfl, rfl, rfl, hst.1, hst.2⟩

/-- C1 at the example of the specification: t1 = 1000, t2_recv = 1050, t3_send = 1060 and
t4 = 1120 give roundTrip 120, masterProcessing 10, networkDelay 55 and offset 105. -/
theorem performSync_offset_formula_witness :
    (computeOffset ⟨1000, 1050, 1060⟩ 1120).roundTrip = 120
    ∧ (computeOffset ⟨1000, 1050, 1060⟩ 1120).masterProcessing = 10
    ∧ (computeOffset ⟨1000, 1050, 1060⟩ 1120).networkDelay = 55
    ∧ (computeOffset ⟨1000, 1050, 1060⟩ 1120).offset = 105
    ∧ (performSync new (AttemptEnv.exchange 1000 [] ⟨1000, 1050, 1060⟩ 1120 1120)).1.stats_.last_rtt_us
        = 120
    ∧ (performSync new (AttemptEnv.exchange 1000 [] ⟨1000, 1050, 1060⟩ 1120 1120)).1.stats_.last_offset_us
        = 105 := by
  have h := performSync_offset_formula new
    (AttemptEnv.exchange 1000 [] ⟨1000, 1050, 1060⟩ 1120 1120)
    ⟨[], (TimeResponse.mk 1000 1050 1060).encode, 1120⟩ 1000 1050 1060 1120
    (by decide) (by decide) (by decide) rfl rfl (by decide) (by decide) (by decide)
    (by decide) (by decide) (by decide) (by decide) (by decide)
  simpa using h

/-! ## C2: the smoothing recurrence -/

theorem tdiv_eq_floor_of_nonneg (a : Int) (q : Nat) (ha : 0 ≤ a) :
    Int.tdiv a q = ⌊(a : ℚ) / (q : ℚ)⌋ := by
  rw [Rat.floor_intCast_div_natCast, Int.tdiv_eq_ediv ha (Int.natCast_nonneg q)]

theorem tdiv_eq_ceil_of_nonpos (a : Int) (q : Nat) (ha : a ≤ 0) :
    Int.tdiv a q = ⌈(a : ℚ) / (q : ℚ)⌉ := by
  have h := tdiv_eq_floor_of_nonneg (-a) q (by omega)
  rw [Int.neg_tdiv] at h
  have h2 : ((-a : Int) : ℚ) / (q : ℚ) = -((a : ℚ) / (q : ℚ)) := by
    push_cast; ring
  rw [h2, Int.floor_neg] at h
  omega

/-- C3 fails as stated: with alpha = 0.75, raw offsets 105 and 106 leave the smoothed
offset at 105.75, and getOffset returns 105 while the nearest integer is 106. -/
theorem getOffset_not_rounded :
    (attempts (Example.client Example.threeQuarters)
        [Example.exchange 0, Example.exchange 1]).1.smoothed_offset_ = ⟨423 * 2 ^ 147⟩
    ∧ getOffset (attempts (Example.client Example.threeQuarters)
        [Example.exchange 0, Example.exchange 1]).1 = 105
    ∧ F32.roundNearest (attempts (Example.client Example.threeQuarters)
        [Example.exchange 0, Example.exchange 1]).1.smoothed_offset_ = 106
    ∧ getOffset (attempts (Example.client Example.threeQuarters)
        [Example.exchange 0, Example.exchange 1]).1
      ≠ F32.roundNearest (attempts (Example.client Example.threeQuarters)
        [Example.exchange 0, Example.exchange 1]).1.smoothed_offset_ := by
  decide

/-- C3 as amended: after every successful exchange whose smoothed offset, with its
fractional part discarded, fits int64 (so that the cast is defined), on an engine whose
logging test does not divide by zero, getOffset is an int64 value and is the smoothed offset
with its fractional part discarded, that is its floor when the smoothed offset is not
negative and its ceiling when it is not positive. -/
theorem getOffset_truncates (s : ESPNowTimeSync) (env : AttemptEnv) (m : RecvMsg)
    (hc : s.is_master_ = false)
    (hlog : s.config_.enable_logging = true → s.config_.log_interval_syncs ≠ 0)
    (hr : env.received = some m)
    (hfit : InInt64 (Int.tdiv (performSync s env).1.smoothed_offset_.units (2 ^ 149))) :
    getOffset (performSync s env).1
        = Int.tdiv (performSync s env).1.smoothed_offset_.units (2 ^ 149)
    ∧ InInt64 (getOffset (performSync s env).1)
    ∧ (0 ≤ (performSync s env).1.smoothed_offset_.toRat →
        getOffset (performSync s env).1 = ⌊(performSync s env).1.smoothed_offset_.toRat⌋)
    ∧ ((performSync s env).1.smoothed_offset_.toRat ≤ 0 →
        getOffset (performSync s env).1 = ⌈(performSync s env).1.smoothed_offset_.toRat⌉) := by
  have hfirst : getOffset (performSync s env).1
      = Int.tdiv (performSync s env).1.smoothed_offset_.units (2 ^ 149) := by
    rw [performSync_fst_of_received s env m hc hr]
    simp [getOffset, F32.toInt64, F32.quantum]
  refine ⟨hfirst, by rw [hfirst]; exact hfit, ?_⟩
  clear hfit hfirst
  rw [performSync_fst_of_received s env m hc hr]
  simp only [getOffset, F32.toInt64, F32.toRat]
  have hq : (0 : ℚ) < ((F32.quantum : Nat) : ℚ) := by
    have : 0 < F32.quantum := by decide
    exact_mod_cast this
  refine ⟨fun h => ?_, fun h => ?_⟩
  · apply tdiv_eq_floor_of_nonneg
    have := (div_nonneg_iff.mp h)
    rcases this with ⟨h1, -⟩ | ⟨-, h2⟩
    · exact_mod_cast h1
    · exact absurd h2 (not_le.mpr hq)
  · apply tdiv_eq_ceil_of_nonpos
    by_contra hpos
    push_neg at hpos
    exact absurd h (not_le.mpr (div_pos (Int.cast_pos.mpr hpos) hq))

/-- C3 amended, at the run of the counterexample: getOffset is 105, the floor of 105.75. -/
theorem getOffset_truncates_witness :
    InInt64 (Int.tdiv (performSync
          (performSync (Example.client Example.threeQuarters) (Example.exchange 0)).1
          (Example.exchange 1)).1.smoothed_offset_.units (2 ^ 149))
    ∧ getOffset (performSync
        (performSync (Example.client Example.threeQuarters) (Example.exchange 0)).1
        (Example.exchange 1)).1
      = Int.tdiv (performSync
          (performSync (Example.client Example.threeQuarters) (Example.exchange 0)).1
          (Example.exchange 1)).1.smoothed_offset_.units (2 ^ 149)
    ∧ getOffset (performSync
        (performSync (Example.client Example.threeQuarters) (Example.exchange 0)).1
        (Example.exchange 1)).1 = 105 :=
  ⟨by decide,
   (getOffset_truncates
    (performSync (Example.client Example.threeQuarters) (Example.exchange 0)).1
    (Example.exchange 1) (Example.response 1) (by decide) (by decide) (by decide)
    (by decide)).1, by decide⟩

/-! ## C4: the first sample -/

/-- The first successful exchange of a client with no success counted, when the raw offset
has magnitude at most 2^24: the smoothed offset is the raw offset and getOffset equals
last_offset_us. -/
theorem first_exchange_exact_in_float_range (s : ESPNowTimeSync) (env : AttemptEnv)
    (m : RecvMsg) (hc : s.is_master_ = false) (hfresh : s.stats_.sync_count = 0)
    (hr : env.received = some m) (hsmall : m.rawOffset.natAbs ≤ 2 ^ 24) :
    (performSync s env).1.smoothed_offset_.toRat = m.rawOffset
    ∧ getOffset (performSync s env).1 = (performSync s env).1.stats_.last_offset_us := by
  rw [performSync_fst_of_received s env m hc hr]
  simp only [getOffset, smooth, hfresh]
  exact ⟨F32.toRat_ofInt _ hsmall, F32.toInt64_ofInt _ hsmall⟩

/-- C4 at a first exchange whose raw offset is 2^24 + 1 microseconds: last_offset_us holds
16777217 while the smoothed offset and getOffset hold 16777216. -/
theorem first_exchange_loses_precision :
    (performSync (Example.client TimeSyncConfig.default.smoothing_alpha)
        (Example.exchange 16777112)).1.stats_.last_offset_us = 16777217
    ∧ (performSync (Example.client TimeSyncConfig.default.smoothing_alpha)
        (Example.exchange 16777112)).1.smoothed_offset_ = F32.ofInt 16777216
    ∧ getOffset (performSync (Example.client TimeSyncConfig.default.smoothing_alpha)
        (Example.exchange 16777112)).1 = 16777216 := by
  decide

/-! ## C5: the synchronisation threshold -/

/-- C5: on a client engine that starts unsynchronised with no success counted, after every
run of attempts (successes and timeouts in any order) isSynchronized is true exactly when
at least three of the attempts so far succeeded; the counter is 32 bits wide and the run is
taken to hold fewer than 2^32 successes, and the logging test of the engine is taken not to
divide by zero (log_interval_syncs is not 0 when logging is enabled). -/
theorem synchronized_iff_three_successes (s0 : ESPNowTimeSync) (envs : List AttemptEnv)
    (hc : s0.is_master_ = false) (hfresh : s0.stats_.sync_count = 0)
    (hunsync : s0.is_synchronized_ = false)
    (hlog : s0.config_.enable_logging = true → s0.config_.log_interval_syncs ≠ 0)
    (hn : successes envs < 2 ^ 32) :
    isSynchronized (attempts s0 envs).1 = decide (3 ≤ successes envs) := by
  induction envs using List.reverseRecOn with
  | nil => simp [attempts, successes, isSynchronized, hunsync]
  | append_singleton envs env ih =>
    rw [successes_snoc] at hn ⊢
    have ih2 := ih (by omega)
    obtain ⟨h1, -, -, -, h5, -⟩ := attempts_invariants s0 hc envs
    rw [attempts_snoc_fst]
    cases hr : env.received with
    | none =>
      have hs : env.succeeds = false := by simp [AttemptEnv.succeeds, hr]
      rw [performSync_fst_of_timeout _ env h1 hr]
      simpa [isSynchronized, hs] using ih2
    | some m =>
      have hs : env.succeeds = true := by simp [AttemptEnv.succeeds, hr]
      rw [hs] at hn
      simp only [if_true] at hn
      have hsc : (attempts s0 envs).1.stats_.sync_count = successes envs := by
        rw [h5, hfresh]
        split_ifs with h0
        · exact h0.symm
        · rw [Nat.zero_add]; exact Nat.mod_eq_of_lt (by omega)
      rw [performSync_fst_of_received _ env m h1 hr]
      simp only [isSynchronized, hsc, hs, if_true, Nat.mod_eq_of_lt hn]

/-- C5 at the example of the specification: success, timeout, success, timeout, success is
not Synchronized after four attempts and is Synchronized after the fifth. -/
theorem synchronized_iff_three_successes_witness :
    isSynchronized (attempts (Example.client TimeSyncConfig.default.smoothing_alpha)
        [Example.exchange 0, Example.timeout, Example.exchange 1, Example.timeout]).1 = false
    ∧ isSynchronized (attempts (Example.client TimeSyncConfig.default.smoothing_alpha)
        [Example.exchange 0, Example.timeout, Example.exchange 1, Example.timeout,
         Example.exchange 2]).1 = true :=
  ⟨synchronized_iff_three_successes (Example.client TimeSyncConfig.default.smoothing_alpha)
      [Example.exchange 0, Example.timeout, Example.exchange 1, Example.timeout]
      rfl rfl rfl (by decide) (by decide),
   synchronized_iff_three_successes (Example.client TimeSyncConfig.default.smoothing_alpha)
      [Example.exchange 0, Example.timeout, Example.exchange 1, Example.timeout,
       Example.exchange 2]
      rfl rfl rfl (by decide) (by decide)⟩

/-! ## C6: the success rate -/

/-- C6: after every attempt of a client, success or timeout, success_rate is
100.0f * sync_count / (sync_count + fail_count) evaluated in binary32 on the counters as
they stand after the attempt, exactly one of which has grown by one; it is the quotient
itself whenever that is a whole number k and 100 * sync_count and the sum are at most 2^24,
and with sync_count = 7 and fail_count = 3 it is 70.  The counters are taken not to
overflow 32 bits, and when the attempt reads a response the logging test of the engine is
taken not to divide by zero (log_interval_syncs is not 0 when logging is enabled). -/
theorem success_rate_formula (s : ESPNowTimeSync) (env : AttemptEnv)
    (hc : s.is_master_ = false)
    (hlog : env.succeeds = true →
      s.config_.enable_logging = true → s.config_.log_interval_syncs ≠ 0)
    (hno : s.stats_.sync_count + s.stats_.fail_count + 1 < 2 ^ 32) :
    (performSync s env).1.stats_.success_rate
        = F32.div
            (F32.mul (F32.ofInt 100) (F32.ofInt (performSync s env).1.stats_.sync_count))
            (F32.ofInt ((performSync s env).1.stats_.sync_count
                          + (performSync s env).1.stats_.fail_count : Nat))
    ∧ (performSync s env).1.stats_.sync_count + (performSync s env).1.stats_.fail_count
        = s.stats_.sync_count + s.stats_.fail_count + 1
    ∧ (∀ k : Nat,
        100 * (performSync s env).1.stats_.sync_count
            = k * ((performSync s env).1.stats_.sync_count
                    + (performSync s env).1.stats_.fail_count) →
        100 * (performSync s env).1.stats_.sync_count ≤ 2 ^ 24 →
        (performSync s env).1.stats_.sync_count + (performSync s env).1.stats_.fail_count
            ≤ 2 ^ 24 →
        (performSync s env).1.stats_.success_rate = F32.ofInt (k : Int))
    ∧ ((performSync s env).1.stats_.sync_count = 7 →
        (performSync s env).1.stats_.fail_count = 3 →
        (performSync s env).1.stats_.success_rate = F32.ofInt 70) := by
  have key : (performSync s env).1.stats_.success_rate
        = successRate (performSync s env).1.stats_.sync_count
            (performSync s env).1.stats_.fail_count
      ∧ (performSync s env).1.stats_.sync_count + (performSync s env).1.stats_.fail_count
        = s.stats_.sync_count + s.stats_.fail_count + 1 := by
    cases hr : env.received with
    | none =>
      rw [performSync_fst_of_timeout s env hc hr]
      refine ⟨rfl, ?_⟩
      simp only []
      rw [Nat.mod_eq_of_lt (by omega)]
      omega
    | some m =>
      rw [performSync_fst_of_received s env m hc hr]
      refine ⟨rfl, ?_⟩
      simp only []
      rw [Nat.mod_eq_of_lt (by omega)]
      omega
  obtain ⟨k1, k2⟩ := key
  refine ⟨?_, k2, fun k hk hs hn => ?_, fun h7 h3 => ?_⟩
  · rw [k1, successRate, Nat.mod_eq_of_lt (by omega)]
  · rw [k1]
    exact successRate_exact _ _ k hk (by omega) hs hn
  · rw [k1, h7, h3]
    decide

/-- C6 at a run of seven successes and three timeouts: the success rate is 70. -/
theorem success_rate_formula_witness :
    (performSync
        (attempts (Example.client TimeSyncConfig.default.smoothing_alpha)
          [Example.exchange 0, Example.timeout, Example.exchange 1, Example.exchange 2,
           Example.timeout, Example.exchange 3, Example.exchange 4, Example.exchange 5,
           Example.timeout]).1
        (Example.exchange 6)).1.stats_.success_rate = F32.ofInt 70 :=
  (success_rate_formula
    (attempts (Example.client TimeSyncConfig.default.smoothing_alpha)
      [Example.exchange 0, Example.timeout, Example.exchange 1, Example.exchange 2,
       Example.timeout, Example.exchange 3, Example.exchange 4, Example.exchange 5,
       Example.timeout]).1
    (Example.exchange 6) (by decide) (by decide) (by decide)).2.2.2 (by decide) (by decide)

/-! ## Callbacks invoked by the operations -/

theorem statusCalls_append (xs ys : List Effect) :
    statusCalls (xs ++ ys) = statusCalls xs ++ statusCalls ys := by
  simp [statusCalls, List.filterMap_append]

theorem eventCalls_append (xs ys : List Effect) :
    eventCalls (xs ++ ys) = eventCalls xs ++ eventCalls ys := by
  simp [eventCalls, List.filterMap_append]

theorem statusCalls_log (b : Bool) : statusCalls (if b then [Effect.log] else []) = [] := by
  cases b <;> rfl

theorem eventCalls_log (b : Bool) : eventCalls (if b then [Effect.log] else []) = [] := by
  cases b <;> rfl

/-- The callbacks invoked by the response branch. -/
theorem onResponse_calls (s2 : ESPNowTimeSync) (now : Nat) :
    statusCalls (onResponse s2 now).2
        = (if (decide (3 ≤ (s2.stats_.sync_count + 1) % 2 ^ 32) != s2.is_synchronized_)
              && s2.sync_status_callback_
           then [(decide (3 ≤ (s2.stats_.sync_count + 1) % 2 ^ 32),
                  (onResponse s2 now).1.current_offset_)]
           else [])
    ∧ eventCalls (onResponse s2 now).2
        = (if s2.sync_event_callback_ && decide (3 ≤ (s2.stats_.sync_count + 1) % 2 ^ 32)
           then [getSyncedTime (onResponse s2 now).1 now] else []) := by
  rw [onResponse_fst]
  simp only [onResponse, updateSyncStatus]
  constructor
  · simp only [statusCalls_append, statusCalls_log, List.append_nil]
    cases h1 : (decide (3 ≤ (s2.stats_.sync_count + 1) % 2 ^ 32) != s2.is_synchronized_) <;>
      cases h2 : s2.sync_status_callback_ <;>
      cases h3 : s2.sync_event_callback_ <;>
      cases h4 : decide (3 ≤ (s2.stats_.sync_count + 1) % 2 ^ 32) <;>
      simp [statusCalls, h1, h2, h3, h4]
  · simp only [eventCalls_append, eventCalls_log, List.append_nil]
    cases h1 : (decide (3 ≤ (s2.stats_.sync_count + 1) % 2 ^ 32) != s2.is_synchronized_) <;>
      cases h2 : s2.sync_status_callback_ <;>
      cases h3 : s2.sync_event_callback_ <;>
      cases h4 : decide (3 ≤ (s2.stats_.sync_count + 1) % 2 ^ 32) <;>
      simp [eventCalls, getSyncedTime, h1, h2, h3, h4]

/-- The callbacks invoked by an attempt of a client that reads a response. -/
theorem performSync_calls_of_received (s : ESPNowTimeSync) (env : AttemptEnv) (m : RecvMsg)
    (hc : s.is_master_ = false) (hr : env.received = some m) :
    statusCalls (performSync s env).2
        = (if (decide (3 ≤ (s.stats_.sync_count + 1) % 2 ^ 32) != s.is_synchronized_)
              && s.sync_status_callback_
           then [(decide (3 ≤ (s.stats_.sync_count + 1) % 2 ^ 32),
                  (performSync s env).1.current_offset_)]
           else [])
    ∧ eventCalls (performSync s env).2
        = (if s.sync_event_callback_ && decide (3 ≤ (s.stats_.sync_count + 1) % 2 ^ 32)
           then [getSyncedTime (performSync s env).1 env.now] else []) := by
  have h := onResponse_calls (withResponse { s with response_ready_ := false } (some m)) env.now
  rw [performSync_of_received s env m hc hr]
  constructor
  · have h1 := h.1
    simp only [withResponse] at h1
    simpa [statusCalls, withResponse] using h1
  · have h2 := h.2
    simp only [withResponse] at h2
    simpa [eventCalls, withResponse] using h2

/-- An attempt that times out invokes no callback. -/
theorem performSync_calls_of_timeout (s : ESPNowTimeSync) (env : AttemptEnv)
    (hc : s.is_master_ = false) (hr : env.received = none) :
    statusCalls (performSync s env).2 = [] ∧ eventCalls (performSync s env).2 = [] := by
  rw [performSync_of_timeout s env hc hr]
  simp only [onTimeout]
  constructor
  · cases h : s.config_.enable_logging <;> simp [statusCalls, h]
  · cases h : s.config_.enable_logging <;> simp [eventCalls, h]

/-- A tick of a running client whose interval has elapsed performs the attempt. -/
theorem update_of_due (s : ESPNowTimeSync) (now_ms : Nat) (env : AttemptEnv) (end_ms : Nat)
    (hi : s.initialized_ = true) (ha : s.sync_active_ = true) (hc : s.is_master_ = false)
    (hd : due s now_ms) :
    update s now_ms env end_ms
      = ({ (performSync s env).1 with last_sync_time_ := end_ms % 2 ^ 32 },
         (performSync s env).2) := by
  unfold due at hd
  unfold update
  rw [if_neg (by simp [hi, ha])]
  rw [if_pos (by simp only [hc, Bool.not_false, Bool.true_and, decide_eq_true_eq]; exact hd)]

/-- C7 at its failing inputs: stopSync on an initialised client that is Unsynchronized
invokes the status callback with false, and a second startSync on a master that is already
Synchronized invokes it with true; neither call changes the synchronisation state. -/
theorem status_callback_without_edge :
    ((Example.client Example.alpha).onSyncStatus.is_synchronized_ = false
      ∧ statusCalls (stopSync (Example.client Example.alpha).onSyncStatus).2 = [(false, 0)]
      ∧ (stopSync (Example.client Example.alpha).onSyncStatus).1.is_synchronized_ = false)
    ∧ ((startSync Example.master.onSyncStatus 0).1.is_synchronized_ = true
      ∧ statusCalls (startSync (startSync Example.master.onSyncStatus 0).1 5).2 = [(true, 0)]
      ∧ (startSync (startSync Example.master.onSyncStatus 0).1 5).1.is_synchronized_ = true) := by
  decide

/-! ## C8: the status callback across a restart -/

/-- C9 fails as stated: on the third successful exchange of a client the engine is not
Synchronized when the exchange begins, and the sync-event callback is invoked. -/
theorem event_callback_on_third_success :
    isSynchronized (attempts (Example.client Example.alpha).onSyncEvent
        [Example.exchange 0, Example.exchange 1]).1 = false
    ∧ eventCalls (performSync
        (attempts (Example.client Example.alpha).onSyncEvent
          [Example.exchange 0, Example.exchange 1]).1
        (Example.exchange 2)).2 = [1235] := by
  decide

/-- C9 as amended: on a client engine with a sync-event callback registered and no success
counted, the callback is invoked on a successful exchange exactly when the engine is
Synchronized after that exchange: not on the first and second success, and exactly once,
with getSyncedTime, on the third and on each later success; a timeout does not invoke it.
The logging test of the engine is taken not to divide by zero (log_interval_syncs is not 0
when logging is enabled). -/
theorem event_callback_from_third_success (s0 : ESPNowTimeSync) (envs : List AttemptEnv)
    (env : AttemptEnv) (hc : s0.is_master_ = false) (hfresh : s0.stats_.sync_count = 0)
    (hcb : s0.sync_event_callback_ = true)
    (hlog : s0.config_.enable_logging = true → s0.config_.log_interval_syncs ≠ 0)
    (hn : successes envs + 1 < 2 ^ 32) :
    (env.received = none → eventCalls (performSync (attempts s0 envs).1 env).2 = [])
    ∧ (∀ m, env.received = some m →
        eventCalls (performSync (attempts s0 envs).1 env).2
            = (if 2 ≤ successes envs
               then [getSyncedTime (performSync (attempts s0 envs).1 env).1 env.now] else [])
        ∧ isSynchronized (performSync (attempts s0 envs).1 env).1
            = decide (2 ≤ successes envs)) := by
  obtain ⟨h1, -, -, h4, h5, -⟩ := attempts_invariants s0 hc envs
  have hsc : (attempts s0 envs).1.stats_.sync_count = successes envs := by
    rw [h5, hfresh]
    split_ifs with h0
    · exact h0.symm
    · rw [Nat.zero_add]; exact Nat.mod_eq_of_lt (by omega)
  have hmod : (successes envs + 1) % 2 ^ 32 = successes envs + 1 := Nat.mod_eq_of_lt hn
  refine ⟨fun hr => (performSync_calls_of_timeout _ env h1 hr).2, fun m hr => ⟨?_, ?_⟩⟩
  · rw [(performSync_calls_of_received _ env m h1 hr).2, h4, hcb, hsc, hmod]
    by_cases h2 : 2 ≤ successes envs
    · have h3 : 3 ≤ successes envs + 1 := by omega
      simp [h2, h3]
    · have h3 : ¬ 3 ≤ successes envs + 1 := by omega
      simp [h2, h3]
  · rw [performSync_fst_of_received _ env m h1 hr]
    simp only [isSynchronized, hsc, hmod]
    by_cases h2 : 2 ≤ successes envs
    · have h3 : 3 ≤ successes envs + 1 := by omega
      simp [h2, h3]
    · have h3 : ¬ 3 ≤ successes envs + 1 := by omega
      simp [h2, h3]

/-- C9 amended, at the third success of a run: the callback is invoked once. -/
theorem event_callback_from_third_success_witness :
    eventCalls (performSync
        (attempts (Example.client Example.alpha).onSyncEvent
          [Example.exchange 0, Example.timeout, Example.exchange 1]).1
        (Example.exchange 2)).2
      = (if 2 ≤ successes [Example.exchange 0, Example.timeout, Example.exchange 1]
         then [getSyncedTime (performSync
                (attempts (Example.client Example.alpha).onSyncEvent
                  [Example.exchange 0, Example.timeout, Example.exchange 1]).1
                (Example.exchange 2)).1 (Example.exchange 2).now]
         else []) :=
  ((event_callback_from_third_success (Example.client Example.alpha).onSyncEvent
      [Example.exchange 0, Example.timeout, Example.exchange 1] (Example.exchange 2)
      (by decide) (by decide) (by decide) (by decide) (by decide)).2
    (Example.response 2) (by decide)).1

/-! ## C10: the timeout path -/

/-- C10: for every client engine state, an attempt during which no response arrives
increments fail_count by one (modulo 2^32), recomputes success_rate, clears the
pending-response flag and changes nothing else: sync_count, last_offset_us, last_rtt_us,
the smoothed offset, getOffset and the synchronisation state are unchanged, and neither
callback is invoked. -/
theorem performSync_timeout_frame (s : ESPNowTimeSync) (env : AttemptEnv)
    (hc : s.is_master_ = false) (hr : env.received = none) :
    (performSync s env).1
        = { s with
            response_ready_ := false
            stats_ :=
              { s.stats_ with
                fail_count := (s.stats_.fail_count + 1) % 2 ^ 32
                success_rate :=
                  successRate s.stats_.sync_count ((s.stats_.fail_count + 1) % 2 ^ 32) } }
    ∧ (s.stats_.fail_count + 1 < 2 ^ 32 →
        (performSync s env).1.stats_.fail_count = s.stats_.fail_count + 1)
    ∧ (performSync s env).1.stats_.sync_count = s.stats_.sync_count
    ∧ (performSync s env).1.stats_.last_offset_us = s.stats_.last_offset_us
    ∧ (performSync s env).1.stats_.last_rtt_us = s.stats_.last_rtt_us
    ∧ (performSync s env).1.smoothed_offset_ = s.smoothed_offset_
    ∧ getOffset (performSync s env).1 = getOffset s
    ∧ isSynchronized (performSync s env).1 = isSynchronized s
    ∧ statusCalls (performSync s env).2 = []
    ∧ eventCalls (performSync s env).2 = [] := by
  have hcalls := performSync_calls_of_timeout s env hc hr
  have hfst := performSync_fst_of_timeout s env hc hr
  refine ⟨hfst, fun hlt => ?_, ?_, ?_, ?_, ?_, ?_, ?_, hcalls.1, hcalls.2⟩
  · rw [hfst]; exact Nat.mod_eq_of_lt hlt
  all_goals (rw [hfst]; try rfl)

/-- C10 at a Synchronized client with both callbacks registered: a timeout after three
successes leaves sync_count at 3 and fail_count at 1 and invokes no callback. -/
theorem performSync_timeout_frame_witness :
    (performSync
        (attempts (Example.client Example.alpha).onSyncStatus.onSyncEvent
          [Example.exchange 0, Example.exchange 1, Example.exchange 2]).1
        Example.timeout).1.stats_.sync_count = 3
    ∧ (performSync
        (attempts (Example.client Example.alpha).onSyncStatus.onSyncEvent
          [Example.exchange 0, Example.exchange 1, Example.exchange 2]).1
        Example.timeout).1.stats_.fail_count = 1
    ∧ statusCalls (performSync
        (attempts (Example.client Example.alpha).onSyncStatus.onSyncEvent
          [Example.exchange 0, Example.exchange 1, Example.exchange 2]).1
        Example.timeout).2 = []
    ∧ eventCalls (performSync
        (attempts (Example.client Example.alpha).onSyncStatus.onSyncEvent
          [Example.exchange 0, Example.exchange 1, Example.exchange 2]).1
        Example.timeout).2 = [] := by
  have h := performSync_timeout_frame
    (attempts (Example.client Example.alpha).onSyncStatus.onSyncEvent
      [Example.exchange 0, Example.exchange 1, Example.exchange 2]).1
    Example.timeout (by decide) (by decide)
  exact ⟨h.2.2.1, h.2.1 (by decide), h.2.2.2.2.2.2.2.2.1, h.2.2.2.2.2.2.2.2.2⟩

/-! ## C11: the master -/

/-- A tick or an incoming message leaves a master engine as it is. -/
theorem step_master_of_tickOrReceive (s : ESPNowTimeSync) (op : Op)
    (hm : s.is_master_ = true) (hop : op.isTickOrReceive = true) : (step s op).1 = s := by
  cases op with
  | start t => simp [Op.isTickOrReceive] at hop
  | stop => simp [Op.isTickOrReceive] at hop
  | tick now_ms env end_ms =>
    simp only [step, update, hm]
    split_ifs <;> simp_all
  | receive m t =>
    simp only [step, onReceiveWrapper, hm, processTimeRequest]
    split_ifs <;> rfl

theorem run_master_of_tickOrReceive (s : ESPNowTimeSync) (ops : List Op)
    (hm : s.is_master_ = true) (hops : ∀ op ∈ ops, op.isTickOrReceive = true) :
    (run s ops).1 = s := by
  induction ops generalizing s with
  | nil => rfl
  | cons op rest ih =>
    have h1 := step_master_of_tickOrReceive s op hm (hops op (List.mem_cons_self _ _))
    simp only [run]
    rw [h1]
    exact ih s hm (fun o ho => hops o (List.mem_cons_of_mem _ ho))

/-- C11: for an initialised master engine, after start and every further sequence of ticks
and incoming messages of any size and content, getOffset is 0 and isSynchronized is true
(the engine is left exactly as start left it); a tick on a master changes nothing and has
no effect. -/
theorem master_offset_invariant (s : ESPNowTimeSync) (t0 : Nat) (ops : List Op)
    (hi : s.initialized_ = true) (hm : s.is_master_ = true)
    (hops : ∀ op ∈ ops, op.isTickOrReceive = true) :
    getOffset (run (startSync s t0).1 ops).1 = 0
    ∧ isSynchronized (run (startSync s t0).1 ops).1 = true
    ∧ (run (startSync s t0).1 ops).1 = (startSync s t0).1
    ∧ (∀ (e : ESPNowTimeSync) (now_ms : Nat) (env : AttemptEnv) (end_ms : Nat),
        e.is_master_ = true → update e now_ms env end_ms = (e, [])) := by
  have hstart : (startSync s t0).1
      = { s with sync_active_ := true, last_sync_time_ := t0 % 2 ^ 32, current_offset_ := 0,
                 is_synchronized_ := true } := by
    simp [startSync, updateSyncStatus, hi, hm]
  have hm2 : (startSync s t0).1.is_master_ = true := by rw [hstart]; exact hm
  have hrun := run_master_of_tickOrReceive (startSync s t0).1 ops hm2 hops
  refine ⟨?_, ?_, hrun, ?_⟩
  · rw [hrun, hstart]; rfl
  · rw [hrun, hstart]; rfl
  · intro e now_ms env end_ms he
    simp only [update, he]
    split_ifs <;> simp_all

/-- C11 at a master that receives a request, a 24-byte message and an empty message and is
ticked in between. -/
theorem master_offset_invariant_witness :
    getOffset (run (startSync Example.master 0).1
        [Op.receive Example.request 5003, Op.tick 1000 (Example.exchange 0) 1001,
         Op.receive Example.strayResponse 600, Op.receive ⟨[], [], 0⟩ 0,
         Op.tick 5000 Example.timeout 5001]).1 = 0
    ∧ isSynchronized (run (startSync Example.master 0).1
        [Op.receive Example.request 5003, Op.tick 1000 (Example.exchange 0) 1001,
         Op.receive Example.strayResponse 600, Op.receive ⟨[], [], 0⟩ 0,
         Op.tick 5000 Example.timeout 5001]).1 = true :=
  ⟨(master_offset_invariant Example.master 0
      [Op.receive Example.request 5003, Op.tick 1000 (Example.exchange 0) 1001,
       Op.receive Example.strayResponse 600, Op.receive ⟨[], [], 0⟩ 0,
       Op.tick 5000 Example.timeout 5001] (by decide) (by decide) (by decide)).1,
   (master_offset_invariant Example.master 0
      [Op.receive Example.request 5003, Op.tick 1000 (Example.exchange 0) 1001,
       Op.receive Example.strayResponse 600, Op.receive ⟨[], [], 0⟩ 0,
       Op.tick 5000 Example.timeout 5001] (by decide) (by decide) (by decide)).2.1⟩

/-! ## C14: messages of unexpected size -/

/-- C14: a message whose length differs from the size expected for the local role (8 bytes
at a master, 24 bytes at a client) leaves the whole engine unchanged and has no effect at
all: no callback, no reply, no peer registration; delivered during the wait of an attempt
it leaves the pending-response flag and the stored response as they are. -/
theorem wrong_size_dropped (s : ESPNowTimeSync) (m : RecvMsg) (send_time : Nat)
    (hsize : m.data.length ≠ expectedSize s.is_master_) :
    onReceiveWrapper s m send_time = (s, [])
    ∧ statusCalls (onReceiveWrapper s m send_time).2 = []
    ∧ eventCalls (onReceiveWrapper s m send_time).2 = []
    ∧ sendCalls (onReceiveWrapper s m send_time).2 = []
    ∧ peerCalls (onReceiveWrapper s m send_time).2 = []
    ∧ deliver s [m] = s := by
  have key : onReceiveWrapper s m send_time = (s, []) ∧ (onReceiveWrapper s m m.arrival).1 = s := by
    cases hm : s.is_master_ with
    | true =>
      rw [hm] at hsize
      simp only [expectedSize, if_true] at hsize
      simp [onReceiveWrapper, processTimeRequest, hm, hsize]
    | false =>
      rw [hm] at hsize
      simp only [expectedSize, Bool.false_eq_true, if_false] at hsize
      simp [onReceiveWrapper, processTimeResponse, hm, hsize]
  obtain ⟨k1, k2⟩ := key
  rw [k1]
  exact ⟨rfl, rfl, rfl, rfl, rfl, by simp [deliver, k2]⟩

/-- C14 at a client that is handed an 8-byte message and at a master that is handed a
24-byte message. -/
theorem wrong_size_dropped_witness :
    onReceiveWrapper (Example.client Example.alpha) Example.request 5003
        = (Example.client Example.alpha, [])
    ∧ onReceiveWrapper Example.startedMaster Example.strayResponse 600
        = (Example.startedMaster, []) :=
  ⟨(wrong_size_dropped (Example.client Example.alpha) Example.request 5003 (by decide)).1,
   (wrong_size_dropped Example.startedMaster Example.strayResponse 600 (by decide)).1⟩

/-! ## C17: the tick -/

theorem sendCalls_log (b : Bool) : sendCalls (if b then [Effect.log] else []) = [] := by
  cases b <;> rfl

/-- An attempt of a client requests exactly one transmission: the request to the master. -/
theorem sendCalls_performSync (s : ESPNowTimeSync) (env : AttemptEnv)
    (hc : s.is_master_ = false) :
    sendCalls (performSync s env).2
      = [(s.master_mac_, TimeRequest.encode ⟨env.t1 % 2 ^ 64⟩)] := by
  cases hr : env.received with
  | none =>
    rw [performSync_of_timeout s env hc hr]
    simp only [onTimeout]
    cases h : s.config_.enable_logging <;> simp [sendCalls, h]
  | some m =>
    rw [performSync_of_received s env m hc hr]
    simp only [onResponse, updateSyncStatus, withResponse]
    cases h1 : (decide (3 ≤ (s.stats_.sync_count + 1) % 2 ^ 32) != s.is_synchronized_) <;>
      cases h2 : s.sync_status_callback_ <;>
      cases h3 : s.sync_event_callback_ <;>
      cases h4 : decide (3 ≤ (s.stats_.sync_count + 1) % 2 ^ 32) <;>
      cases h5 : s.config_.enable_logging <;>
      cases h6 : ((s.stats_.sync_count + 1) % 2 ^ 32 % s.config_.log_interval_syncs == 0) <;>
      simp [sendCalls, h1, h2, h3, h4, h5, h6]

/-- The two cases of a tick. -/
theorem update_cases (s : ESPNowTimeSync) (now_ms : Nat) (env : AttemptEnv) (end_ms : Nat) :
    ((s.initialized_ = true ∧ s.sync_active_ = true ∧ s.is_master_ = false
        ∧ s.config_.sync_interval_ms
            ≤ (now_ms % 2 ^ 32 + 2 ^ 32 - s.last_sync_time_) % 2 ^ 32) →
      update s now_ms env end_ms
          = ({ (performSync s env).1 with last_sync_time_ := end_ms % 2 ^ 32 },
             (performSync s env).2))
    ∧ (¬ (s.initialized_ = true ∧ s.sync_active_ = true ∧ s.is_master_ = false
          ∧ s.config_.sync_interval_ms
              ≤ (now_ms % 2 ^ 32 + 2 ^ 32 - s.last_sync_time_) % 2 ^ 32) →
      update s now_ms env end_ms = (s, [])) := by
  constructor
  · rintro ⟨hi, ha, hc, hd⟩
    exact update_of_due s now_ms env end_ms hi ha hc hd
  · intro hn
    unfold update
    by_cases h1 : (!s.initialized_ || !s.sync_active_) = true
    · rw [if_pos h1]
    · rw [if_neg h1]
      have hi : s.initialized_ = true := by
        cases h : s.initialized_ <;> simp_all
      have ha : s.sync_active_ = true := by
        cases h : s.sync_active_ <;> simp_all
      rw [if_neg]
      intro h2
      simp only [Bool.and_eq_true, Bool.not_eq_true', decide_eq_true_eq] at h2
      exact hn ⟨hi, ha, h2.1, h2.2⟩

/-- C17: a tick performs exactly one synchronisation attempt (one request sent, then the
time of the attempt recorded) when the engine is initialised, sync is active, the role is
client and the milliseconds elapsed since the last attempt, taken modulo 2^32, are at least
sync_interval_ms; in every other case it leaves the engine unchanged and has no effect.
For the attempt to complete when it reads a response, the logging test of the engine is
taken not to divide by zero (log_interval_syncs is not 0 when logging is enabled). -/
theorem update_attempts_iff_due (s : ESPNowTimeSync) (now_ms : Nat) (env : AttemptEnv)
    (end_ms : Nat) :
    ((s.initialized_ = true ∧ s.sync_active_ = true ∧ s.is_master_ = false
        ∧ s.config_.sync_interval_ms
            ≤ (now_ms % 2 ^ 32 + 2 ^ 32 - s.last_sync_time_) % 2 ^ 32) →
      (env.succeeds = true →
        s.config_.enable_logging = true → s.config_.log_interval_syncs ≠ 0) →
      update s now_ms env end_ms
          = ({ (performSync s env).1 with last_sync_time_ := end_ms % 2 ^ 32 },
             (performSync s env).2)
      ∧ sendCalls (update s now_ms env end_ms).2
          = [(s.master_mac_, TimeRequest.encode ⟨env.t1 % 2 ^ 64⟩)])
    ∧ (¬ (s.initialized_ = true ∧ s.sync_active_ = true ∧ s.is_master_ = false
          ∧ s.config_.sync_interval_ms
              ≤ (now_ms % 2 ^ 32 + 2 ^ 32 - s.last_sync_time_) % 2 ^ 32) →
      update s now_ms env end_ms = (s, [])) := by
  refine ⟨fun h _ => ?_, (update_cases s now_ms env end_ms).2⟩
  have hu := (update_cases s now_ms env end_ms).1 h
  refine ⟨hu, ?_⟩
  rw [hu]
  exact sendCalls_performSync s env h.2.2.1

/-- C17 at a started client: a tick 1000 ms after start sends one request, a tick 999 ms
after start does nothing. -/
theorem update_attempts_iff_due_witness :
    sendCalls (update (startSync (Example.client Example.alpha) 0).1 1000
        (Example.exchange 0) 1001).2
      = [(Example.masterMac, TimeRequest.encode ⟨1000⟩)]
    ∧ update (startSync (Example.client Example.alpha) 0).1 999 (Example.exchange 0) 1000
      = ((startSync (Example.client Example.alpha) 0).1, []) :=
  ⟨((update_attempts_iff_due (startSync (Example.client Example.alpha) 0).1 1000
      (Example.exchange 0) 1001).1 (by decide) (by decide)).2,
   (update_attempts_iff_due (startSync (Example.client Example.alpha) 0).1 999
      (Example.exchange 0) 1000).2 (by decide)⟩

/-! ## C18: the counters -/

/-- How one attempt of a client moves the two counters, absent overflow. -/
theorem performSync_counters (s : ESPNowTimeSync) (env : AttemptEnv)
    (hc : s.is_master_ = false)
    (hb : s.stats_.sync_count + s.stats_.fail_count + 1 < 2 ^ 32) :
    (env.succeeds = true
        ∧ (performSync s env).1.stats_.sync_count = s.stats_.sync_count + 1
        ∧ (performSync s env).1.stats_.fail_count = s.stats_.fail_count)
    ∨ (env.succeeds = false
        ∧ (performSync s env).1.stats_.sync_count = s.stats_.sync_count
        ∧ (performSync s env).1.stats_.fail_count = s.stats_.fail_count + 1) := by
  cases hr : env.received with
  | none =>
    right
    rw [performSync_fst_of_timeout s env hc hr]
    exact ⟨by simp [AttemptEnv.succeeds, hr], rfl, Nat.mod_eq_of_lt (by omega)⟩
  | some m =>
    left
    rw [performSync_fst_of_received s env m hc hr]
    exact ⟨by simp [AttemptEnv.succeeds, hr], Nat.mod_eq_of_lt (by omega), rfl⟩

/-- One operation never lowers a counter and raises their sum by at most one. -/
theorem step_counters (s : ESPNowTimeSync) (op : Op)
    (hb : s.stats_.sync_count + s.stats_.fail_count + 1 < 2 ^ 32) :
    s.stats_.sync_count ≤ (step s op).1.stats_.sync_count
    ∧ s.stats_.fail_count ≤ (step s op).1.stats_.fail_count
    ∧ (step s op).1.stats_.sync_count + (step s op).1.stats_.fail_count
        ≤ s.stats_.sync_count + s.stats_.fail_count + 1 := by
  cases op with
  | start t =>
    have h : (startSync s t).1.stats_ = s.stats_ := by
      simp only [startSync, updateSyncStatus]
      split_ifs <;> rfl
    simp only [step, h]
    omega
  | stop =>
    have h : (stopSync s).1.stats_ = s.stats_ := rfl
    simp only [step, h]
    omega
  | receive m t =>
    have h : (onReceiveWrapper s m t).1.stats_ = s.stats_ := by
      simp only [onReceiveWrapper, processTimeRequest, processTimeResponse]
      split_ifs <;> rfl
    simp only [step, h]
    omega
  | tick now_ms env end_ms =>
    simp only [step]
    by_cases hcond : s.initialized_ = true ∧ s.sync_active_ = true ∧ s.is_master_ = false
        ∧ s.config_.sync_interval_ms
            ≤ (now_ms % 2 ^ 32 + 2 ^ 32 - s.last_sync_time_) % 2 ^ 32
    · rw [((update_cases s now_ms env end_ms).1 hcond)]
      rcases performSync_counters s env hcond.2.2.1 hb with ⟨-, h1, h2⟩ | ⟨-, h1, h2⟩
      · simp only [h1, h2]; omega
      · simp only [h1, h2]; omega
    · rw [((update_cases s now_ms env end_ms).2 hcond)]
      dsimp only
      omega

/-- C18: absent overflow of the 32-bit counters, every attempt of a client raises exactly
one of sync_count (on a received response) and fail_count (on a timeout) by one and leaves
the other unchanged; startSync and stopSync leave both as they are; along every sequence of
starts, stops, ticks and incoming messages neither counter ever decreases; resetStats sets
both to zero.  For the parts about attempts (the single attempt when it reads a response,
and the sequence), the logging test of the engine is taken not to divide by zero
(log_interval_syncs is not 0 when logging is enabled). -/
theorem counters_monotone (s : ESPNowTimeSync) (ops : List Op) (env : AttemptEnv)
    (now_ms : Nat)
    (hb : s.stats_.sync_count + s.stats_.fail_count + ops.length + 1 < 2 ^ 32) :
    (s.is_master_ = false →
      (env.succeeds = true →
        s.config_.enable_logging = true → s.config_.log_interval_syncs ≠ 0) →
      (env.succeeds = true
          ∧ (performSync s env).1.stats_.sync_count = s.stats_.sync_count + 1
          ∧ (performSync s env).1.stats_.fail_count = s.stats_.fail_count)
      ∨ (env.succeeds = false
          ∧ (performSync s env).1.stats_.sync_count = s.stats_.sync_count
          ∧ (performSync s env).1.stats_.fail_count = s.stats_.fail_count + 1))
    ∧ (startSync s now_ms).1.stats_ = s.stats_
    ∧ (stopSync s).1.stats_ = s.stats_
    ∧ ((s.config_.enable_logging = true → s.config_.log_interval_syncs ≠ 0) →
        s.stats_.sync_count ≤ (run s ops).1.stats_.sync_count
        ∧ s.stats_.fail_count ≤ (run s ops).1.stats_.fail_count)
    ∧ (resetStats s).stats_.sync_count = 0
    ∧ (resetStats s).stats_.fail_count = 0 := by
  have hstart : (startSync s now_ms).1.stats_ = s.stats_ := by
    simp only [startSync, updateSyncStatus]
    split_ifs <;> rfl
  have hrun : ∀ (ops : List Op) (s : ESPNowTimeSync),
      s.stats_.sync_count + s.stats_.fail_count + ops.length + 1 < 2 ^ 32 →
      s.stats_.sync_count ≤ (run s ops).1.stats_.sync_count
      ∧ s.stats_.fail_count ≤ (run s ops).1.stats_.fail_count := by
    intro ops
    induction ops with
    | nil => intro s _; exact ⟨le_rfl, le_rfl⟩
    | cons op rest ih =>
      intro s hs
      simp only [List.length_cons] at hs
      obtain ⟨h1, h2, h3⟩ := step_counters s op (by omega)
      obtain ⟨i1, i2⟩ := ih (step s op).1 (by omega)
      simp only [run]
      exact ⟨le_trans h1 i1, le_trans h2 i2⟩
  obtain ⟨r1, r2⟩ := hrun ops s hb
  exact ⟨fun hc _ => performSync_counters s env hc (by omega), hstart, rfl,
    fun _ => ⟨r1, r2⟩, rfl, rfl⟩

/-- C18 at the restart sequence: four successes counted, no failure, and the counters are
not reset by the stop and start in between. -/
theorem counters_monotone_witness :
    (Example.client Example.alpha).stats_.sync_count
      ≤ (run (Example.client Example.alpha) Example.restartScenario).1.stats_.sync_count
    ∧ (run (Example.client Example.alpha) Example.restartScenario).1.stats_.sync_count = 4
    ∧ (run (Example.client Example.alpha) Example.restartScenario).1.stats_.fail_count = 0 :=
  ⟨((counters_monotone (Example.client Example.alpha) Example.restartScenario
      Example.timeout 0 (by decide)).2.2.2.1 (by decide)).1, by decide, by decide⟩

/-! ## C19: the reply of the master -/

theorem encodeU64_decodeLE (b0 b1 b2 b3 b4 b5 b6 b7 : Nat)
    (h0 : b0 < 256) (h1 : b1 < 256) (h2 : b2 < 256) (h3 : b3 < 256)
    (h4 : b4 < 256) (h5 : b5 < 256) (h6 : b6 < 256) (h7 : b7 < 256) :
    encodeU64 (decodeLE [b0, b1, b2, b3, b4, b5, b6, b7]) = [b0, b1, b2, b3, b4, b5, b6, b7]
    ∧ decodeLE [b0, b1, b2, b3, b4, b5, b6, b7] < 2 ^ 64 := by
  simp only [encodeU64, decodeLE, List.cons.injEq, and_true]
  refine ⟨⟨?_, ?_, ?_, ?_, ?_, ?_, ?_, ?_⟩, ?_⟩ <;> omega

theorem length_encodeU64 (n : Nat) : (encodeU64 n).length = 8 := rfl

/-- C19: for every 8-byte request handled by a master, the engine is unchanged and the
reply sent back to the sender is exactly 24 bytes; its first 8 bytes are those of the
request (t1 echoed), its t2_recv is the clock reading taken on receipt and its t3_send the
reading taken when the reply is filled in, so with a monotonic clock t2_recv <= t3_send. -/
theorem master_reply (s : ESPNowTimeSync) (m : RecvMsg) (send_time : Nat)
    (hm : s.is_master_ = true) (hlen : m.data.length = 8) (hbytes : ∀ b ∈ m.data, b < 256)
    (hmono : m.arrival ≤ send_time) (hclock : send_time < 2 ^ 64) :
    ∃ payload : List Nat,
      onReceiveWrapper s m send_time
          = (s, [Effect.registerPeer m.src_addr, Effect.send m.src_addr payload])
      ∧ sendCalls (onReceiveWrapper s m send_time).2 = [(m.src_addr, payload)]
      ∧ payload.length = 24
      ∧ payload.take 8 = m.data
      ∧ TimeResponse.decode payload
          = ⟨(TimeRequest.decode m.data).t1, m.arrival, send_time⟩
      ∧ (TimeResponse.decode payload).t2_recv ≤ (TimeResponse.decode payload).t3_send := by
  obtain ⟨src, data, arrival⟩ := m
  simp only at hlen hbytes hmono ⊢
  match data, hlen, hbytes with
  | [b0, b1, b2, b3, b4, b5, b6, b7], _, hb =>
    have h0 := hb b0 (by simp)
    have h1 := hb b1 (by simp)
    have h2 := hb b2 (by simp)
    have h3 := hb b3 (by simp)
    have h4 := hb b4 (by simp)
    have h5 := hb b5 (by simp)
    have h6 := hb b6 (by simp)
    have h7 := hb b7 (by simp)
    obtain ⟨henc, hlt⟩ := encodeU64_decodeLE b0 b1 b2 b3 b4 b5 b6 b7 h0 h1 h2 h3 h4 h5 h6 h7
    have harr : arrival % 18446744073709551616 = arrival := by omega
    have hsend : send_time % 18446744073709551616 = send_time := by omega
    have hreq : TimeRequest.decode [b0, b1, b2, b3, b4, b5, b6, b7]
        = ⟨decodeLE [b0, b1, b2, b3, b4, b5, b6, b7]⟩ := by
      simp [TimeRequest.decode]
    have hdec := TimeResponse.decode_encode
      ⟨decodeLE [b0, b1, b2, b3, b4, b5, b6, b7], arrival, send_time⟩ hlt (by simp; omega)
      hclock
    refine ⟨(TimeResponse.mk (decodeLE [b0, b1, b2, b3, b4, b5, b6, b7]) arrival
              send_time).encode, ?_, ?_, ?_, ?_, ?_, ?_⟩
    · simp [onReceiveWrapper, processTimeRequest, registerPeer, hm, sizeofTimeRequest, hreq,
        harr, hsend]
    · simp [onReceiveWrapper, processTimeRequest, registerPeer, hm, sizeofTimeRequest, hreq,
        harr, hsend, sendCalls]
    · exact TimeResponse.length_encode _
    · simp only [TimeResponse.encode, henc]
      simp
    · rw [hdec, hreq]
    · rw [hdec]
      exact hmono

/-- C19 at a request stamped 1000, received at clock reading 5000 and answered at 5003:
the reply carries 1000, 5000 and 5003. -/
theorem master_reply_witness :
    ∃ payload : List Nat,
      sendCalls (onReceiveWrapper Example.startedMaster Example.request 5003).2
          = [([10, 20, 30, 40, 50, 60], payload)]
      ∧ payload.length = 24
      ∧ TimeResponse.decode payload = ⟨1000, 5000, 5003⟩ := by
  obtain ⟨payload, -, h2, h3, -, h5, -⟩ :=
    master_reply Example.startedMaster Example.request 5003 (by decide) (by decide)
      (by decide) (by decide) (by decide)
  exact ⟨payload, h2, h3, by rw [h5]; decide⟩

/-! ## C13: failed initialisation -/

/-- C13 fails as stated: a call of begin that fails because transport bring-up fails has
already stored the role and the configuration of the call, and one that fails because the
peer cannot be registered has also stored the master address. -/
theorem failed_begin_keeps_arguments :
    ((ESPNowTimeSync.begin ESPNowTimeSync.new true none Example.otherConfig false true).2 = false
      ∧ (ESPNowTimeSync.begin ESPNowTimeSync.new true none Example.otherConfig false true).1
          ≠ ESPNowTimeSync.new
      ∧ ESPNowTimeSync.new.is_master_ = false
      ∧ (ESPNowTimeSync.begin ESPNowTimeSync.new true none Example.otherConfig false true).1.is_master_
          = true
      ∧ (ESPNowTimeSync.begin ESPNowTimeSync.new true none Example.otherConfig false true).1.config_
          = Example.otherConfig
      ∧ ESPNowTimeSync.new.config_ ≠ Example.otherConfig)
    ∧ ((ESPNowTimeSync.begin ESPNowTimeSync.new false (some Example.masterMac)
          Example.otherConfig true false).2 = false
      ∧ (ESPNowTimeSync.begin ESPNowTimeSync.new false (some Example.masterMac)
          Example.otherConfig true false).1.master_mac_ = Example.masterMac
      ∧ ESPNowTimeSync.new.master_mac_ = [0, 0, 0, 0, 0, 0]) := by
  decide

/-- C13 as amended: a call of begin that returns false on an initialised engine leaves the
engine exactly as it was; one that returns false on an engine not yet initialised leaves it
uninitialised and changes nothing but the role and the configuration, which hold the
arguments of the call, and for the client role with an address given the stored master
address, which holds the first six bytes given. -/
theorem failed_begin_state (s : ESPNowTimeSync) (is_master : Bool)
    (master_mac : Option (List Nat)) (config : TimeSyncConfig) (init_ok add_peer_ok : Bool)
    (hfail : (ESPNowTimeSync.begin s is_master master_mac config init_ok add_peer_ok).2 = false) :
    (s.initialized_ = true →
      (ESPNowTimeSync.begin s is_master master_mac config init_ok add_peer_ok).1 = s)
    ∧ (s.initialized_ = false →
      (ESPNowTimeSync.begin s is_master master_mac config init_ok add_peer_ok).1
        = { s with
            is_master_ := is_master
            config_ := config
            master_mac_ :=
              (match master_mac with
                | some mac => if is_master then s.master_mac_ else mac.take 6
                | none => s.master_mac_) }) := by
  constructor
  · intro hi
    simp [ESPNowTimeSync.begin, hi]
  · intro hi
    cases master_mac <;> cases is_master <;> cases init_ok <;> cases add_peer_ok <;>
      simp [ESPNowTimeSync.begin, hi] at hfail ⊢

/-- C13 amended, at a failed initialisation as master. -/
theorem failed_begin_state_witness :
    (ESPNowTimeSync.begin ESPNowTimeSync.new true none Example.otherConfig false true).1
      = { ESPNowTimeSync.new with is_master_ := true, config_ := Example.otherConfig } :=
  (failed_begin_state ESPNowTimeSync.new true none Example.otherConfig false true
    (by decide)).2 (by decide)

/-! ## C15: a response that no request asked for -/

/-- Two clients that differ at most in the receive buffer and the pending-response flag
make the same attempt: same effects, same resulting engine up to the contents of the
buffer, and the same resulting engine when the attempt reads a response. -/
theorem performSync_forgetBuffer (a b : ESPNowTimeSync) (env : AttemptEnv)
    (ha : a.is_master_ = false) (hab : forgetBuffer a = forgetBuffer b) :
    (performSync a env).2 = (performSync b env).2
    ∧ forgetPayload (performSync a env).1 = forgetPayload (performSync b env).1
    ∧ (env.succeeds = true → (performSync a env).1 = (performSync b env).1)
    ∧ (performSync a env).1.is_master_ = false := by
  have hb : b.is_master_ = false := by
    have := congrArg ESPNowTimeSync.is_master_ hab
    simpa [forgetBuffer, ha] using this.symm
  cases a
  cases b
  simp only [forgetBuffer, ESPNowTimeSync.mk.injEq] at hab
  obtain ⟨h1, h2, h3, h4, h5, h6, h7, h8, h9, -, -, -, h13, h14, h15⟩ := hab
  subst h1 h2 h3 h4 h5 h6 h7 h8 h9 h13 h14 h15
  cases hr : env.received with
  | none =>
    rw [performSync_of_timeout _ env ha hr, performSync_of_timeout _ env hb hr]
    refine ⟨?_, ?_, ?_, ?_⟩
    · simp [onTimeout]
    · simp [onTimeout, forgetPayload]
    · intro hs
      simp [AttemptEnv.succeeds, hr] at hs
    · simpa [onTimeout] using ha
  | some m =>
    rw [performSync_of_received _ env m ha hr, performSync_of_received _ env m hb hr]
    refine ⟨?_, ?_, ?_, ?_⟩
    · simp [withResponse]
    · simp [withResponse]
    · intro _
      simp [withResponse]
    · rw [onResponse_fst]
      exact ha

theorem forgetBuffer_of_forgetPayload (a b : ESPNowTimeSync)
    (h : forgetPayload a = forgetPayload b) : forgetBuffer a = forgetBuffer b := by
  have : forgetBuffer a = { forgetPayload a with response_ready_ := false } := rfl
  rw [this, h]
  rfl

/-- The same along a run of attempts. -/
theorem attempts_forgetBuffer (envs : List AttemptEnv) (a b : ESPNowTimeSync)
    (ha : a.is_master_ = false) (hab : forgetBuffer a = forgetBuffer b) :
    (attempts a envs).2 = (attempts b envs).2
    ∧ (envs ≠ [] → forgetPayload (attempts a envs).1 = forgetPayload (attempts b envs).1)
    ∧ (0 < successes envs → (attempts a envs).1 = (attempts b envs).1) := by
  induction envs generalizing a b with
  | nil => exact ⟨rfl, fun h => absurd rfl h, fun h => by simp [successes] at h⟩
  | cons env rest ih =>
    obtain ⟨p1, p2, p3, p4⟩ := performSync_forgetBuffer a b env ha hab
    obtain ⟨i1, i2, i3⟩ := ih (performSync a env).1 (performSync b env).1 p4
      (forgetBuffer_of_forgetPayload _ _ p2)
    simp only [attempts]
    refine ⟨by rw [p1, i1], fun _ => ?_, fun hpos => ?_⟩
    · cases rest with
      | nil => simpa [attempts] using p2
      | cons e r => exact i2 (List.cons_ne_nil _ _)
    · by_cases hs : env.succeeds = true
      · rw [p3 hs]
      · have hrest : 0 < successes rest := by
          simpa [successes, List.filter_cons, hs] using hpos
        exact i3 hrest

/-- C15 fails as stated: a response handed to a client with no request outstanding is kept
in the receive buffer, and after a later attempt that times out the engine still differs
from the one that never saw the response. -/
theorem stray_response_is_kept :
    (onReceiveWrapper (Example.client Example.alpha) Example.strayResponse 600).1.response_ready_
        = true
    ∧ (performSync
        (onReceiveWrapper (Example.client Example.alpha) Example.strayResponse 600).1
        Example.timeout).1.response_ = ⟨7, 8, 9⟩
    ∧ (performSync (Example.client Example.alpha) Example.timeout).1.response_ = ⟨0, 0, 0⟩
    ∧ (performSync
        (onReceiveWrapper (Example.client Example.alpha) Example.strayResponse 600).1
        Example.timeout).1
      ≠ (performSync (Example.client Example.alpha) Example.timeout).1 := by
  decide

/-- C15 as amended: a correctly sized response handed to a client with no request
outstanding has no effect and changes none of statistics, offset, smoothed offset and
synchronisation state; it is written to the receive buffer and sets the pending-response
flag.  Every later run of attempts has the same effects as without it and leaves the same
engine up to the contents of the receive buffer, and the very same engine once an attempt
of the run has read a response.  At a master a message of 24 bytes changes nothing and
triggers no reply. -/
theorem stray_response_harmless (s : ESPNowTimeSync) (m : RecvMsg) (send_time : Nat)
    (envs : List AttemptEnv) (hc : s.is_master_ = false)
    (hlen : m.data.length = sizeofTimeResponse) :
    (onReceiveWrapper s m send_time).2 = []
    ∧ (onReceiveWrapper s m send_time).1
        = { s with t4_ := m.arrival % 2 ^ 64, response_ := TimeResponse.decode m.data,
                   response_ready_ := true }
    ∧ (onReceiveWrapper s m send_time).1.stats_ = s.stats_
    ∧ getOffset (onReceiveWrapper s m send_time).1 = getOffset s
    ∧ (onReceiveWrapper s m send_time).1.smoothed_offset_ = s.smoothed_offset_
    ∧ isSynchronized (onReceiveWrapper s m send_time).1 = isSynchronized s
    ∧ (attempts (onReceiveWrapper s m send_time).1 envs).2 = (attempts s envs).2
    ∧ (envs ≠ [] →
        forgetPayload (attempts (onReceiveWrapper s m send_time).1 envs).1
          = forgetPayload (attempts s envs).1)
    ∧ (0 < successes envs →
        (attempts (onReceiveWrapper s m send_time).1 envs).1 = (attempts s envs).1)
    ∧ (∀ (e : ESPNowTimeSync) (t : Nat), e.is_master_ = true →
        onReceiveWrapper e m t = (e, [])) := by
  have hrecv : onReceiveWrapper s m send_time
      = ({ s with t4_ := m.arrival % 2 ^ 64, response_ := TimeResponse.decode m.data,
                  response_ready_ := true }, []) := by
    simp [onReceiveWrapper, processTimeResponse, hc, hlen]
  have hrun := attempts_forgetBuffer envs
    { s with t4_ := m.arrival % 2 ^ 64, response_ := TimeResponse.decode m.data,
             response_ready_ := true } s hc rfl
  rw [hrecv]
  refine ⟨rfl, rfl, rfl, rfl, rfl, rfl, hrun.1, hrun.2.1, hrun.2.2, ?_⟩
  intro e t he
  have h8 : m.data.length ≠ sizeofTimeRequest := by
    rw [hlen]; decide
  simp [onReceiveWrapper, processTimeRequest, he, h8]

/-- C15 amended, at a stray response followed by a timeout and a completed exchange: the
engine ends up as if the stray response had never arrived. -/
theorem stray_response_harmless_witness :
    (attempts (onReceiveWrapper (Example.client Example.alpha) Example.strayResponse 600).1
        [Example.timeout, Example.exchange 0]).1
      = (attempts (Example.client Example.alpha) [Example.timeout, Example.exchange 0]).1 :=
  (stray_response_harmless (Example.client Example.alpha) Example.strayResponse 600
    [Example.timeout, Example.exchange 0] (by decide) (by decide)).2.2.2.2.2.2.2.2.1
    (by decide)

/-! ## C12, C20: the delay to the next pulse -/

/-- For a synchronised time that is not negative (and far enough from the top of the
`int64_t` range), the delay of the source is the distance to the first interval boundary
strictly after it: it agrees with the specification, is positive, is at most one interval
and leads to a multiple of the interval. -/
theorem nextPulseDelay_of_nonneg (x : Int) (i : Nat) (hi : 0 < i) (hx : 0 ≤ x)
    (hno : x + i < 2 ^ 63) :
    nextPulseDelay x i = (i : Int) - x % (i : Int)
    ∧ nextPulseDelay x i = specNextPulseDelay x i
    ∧ 0 < nextPulseDelay x i
    ∧ nextPulseDelay x i ≤ i
    ∧ (i : Int) ∣ x + nextPulseDelay x i := by
  have hI : (0 : Int) < (i : Int) := by exact_mod_cast hi
  have h1 : x % (i : Int) + (i : Int) * (x / (i : Int)) = x := Int.emod_add_ediv x i
  have h2 : 0 ≤ x % (i : Int) := Int.emod_nonneg _ hI.ne'
  have h3 : x % (i : Int) < i := Int.emod_lt_of_pos _ hI
  have hmul : (x / (i : Int) + 1) * (i : Int) = (i : Int) * (x / (i : Int)) + i := by ring
  have hcode : nextPulseDelay x i = (i : Int) - x % (i : Int) := by
    unfold nextPulseDelay
    simp only []
    rw [Int.tdiv_eq_ediv hx hI.le, hmul]
    have r1 : InInt64 ((i : Int) * (x / (i : Int)) + i) := by
      unfold InInt64; constructor <;> omega
    rw [wrapInt64_of_inInt64 _ r1]
    have r2 : InInt64 ((i : Int) * (x / (i : Int)) + i - x) := by
      unfold InInt64; constructor <;> omega
    rw [wrapInt64_of_inInt64 _ r2]
    rw [if_neg (by omega)]
    omega
  have hspec : specNextPulseDelay x i = (i : Int) - x % (i : Int) := by
    unfold specNextPulseDelay
    simp only []
    by_cases hr : x % (i : Int) = 0
    · have hx2 : -x = (i : Int) * (-(x / (i : Int))) := by
        rw [Int.mul_neg]; omega
      have hq : (-x) / (i : Int) = -(x / (i : Int)) := by
        rw [hx2, Int.mul_ediv_cancel_left _ hI.ne']
      rw [hq, neg_neg]
      have : x / (i : Int) * (i : Int) = (i : Int) * (x / (i : Int)) := by ring
      rw [this, if_pos (by omega)]
      omega
    · have hq : (-x) / (i : Int) = -(x / (i : Int)) - 1 := by
        have hm : (i : Int) * (-(x / (i : Int)) - 1) = -((i : Int) * (x / (i : Int))) - i := by
          ring
        have := (Int.ediv_emod_unique (a := -x) (b := (i : Int))
          (q := -(x / (i : Int)) - 1) (r := (i : Int) - x % (i : Int)) hI).mpr
          ⟨by rw [hm]; omega, by omega, by omega⟩
        exact this.1
      rw [hq]
      have : -(-(x / (i : Int)) - 1) * (i : Int) = (i : Int) * (x / (i : Int)) + i := by ring
      rw [this, if_neg (by omega)]
      omega
  refine ⟨hcode, by rw [hcode, hspec], by rw [hcode]; omega, by rw [hcode]; omega, ?_⟩
  rw [hcode]
  exact ⟨x / (i : Int) + 1, by rw [mul_add, mul_one]; omega⟩

/-- C12 at the examples of the specification and at its failing input: the source and the
specification agree at 2300000 (delay 700000) and at the boundary 2000000 (delay 1000000)
for the interval 1000000, and at the synchronised time -300000 the source computes the
delay 1300000 where the specification gives 300000. -/
theorem pulse_delay_differs_at_negative_time :
    (nextPulseDelay 2300000 1000000 = 700000 ∧ specNextPulseDelay 2300000 1000000 = 700000)
    ∧ (nextPulseDelay 2000000 1000000 = 1000000 ∧ specNextPulseDelay 2000000 1000000 = 1000000)
    ∧ nextPulseDelay (-300000) 1000000 = 1300000
    ∧ specNextPulseDelay (-300000) 1000000 = 300000 := by
  decide

/-- C20 at its failing input: a pulse scheduler started at clock reading 2300000 on a
Synchronized client whose offset is -2600000 (synchronised time -300000) arms the pulse
timer with 1300000 microseconds, more than its interval of 1000000; the first interval
boundary after -300000 is 0, which is 300000 microseconds away. -/
theorem pulse_delay_exceeds_interval :
    isSynchronized Example.behindClient = true
    ∧ getOffset Example.behindClient = -2600000
    ∧ ((ESPNowTimeSyncLED.begin (ESPNowTimeSyncLED.new 2) Example.behindClient).1.start
        (ESPNowTimeSyncLED.begin (ESPNowTimeSyncLED.new 2) Example.behindClient).2
        2300000).interval_us_ = 1000000
    ∧ ((ESPNowTimeSyncLED.begin (ESPNowTimeSyncLED.new 2) Example.behindClient).1.start
        (ESPNowTimeSyncLED.begin (ESPNowTimeSyncLED.new 2) Example.behindClient).2
        2300000).pulse_armed = some 1300000
    ∧ ¬ (nextPulseDelay (-300000) 1000000 ≤ 1000000) := by
  decide

/-! ## C16: the pulse timer callback after stop -/

/-- The pulse timer callback on a scheduler that is not active: the output is driven HIGH
and the off timer is started; the pulse timer is left alone. -/
theorem onPulseTimer_of_inactive (l : ESPNowTimeSyncLED) (e : ESPNowTimeSync) (now_us : Nat)
    (h : l.active_ = false) :
    ESPNowTimeSyncLED.onPulseTimer l e now_us
      = { l with pin_high := true
                 off_armed := timerStartOnce l.off_timer_ l.off_armed l.pulse_width_us_ } := by
  simp [ESPNowTimeSyncLED.onPulseTimer, ESPNowTimeSyncLED.scheduleNextPulse, h]

/-- C16 at its failing input: on a scheduler that was started and then stopped (inactive,
output LOW, no timer armed), the pulse timer callback drives the output HIGH and arms the
off timer with the pulse width of 500 microseconds; it does not re-arm the pulse timer. -/
theorem pulse_callback_after_stop :
    (Example.stoppedLed.active_ = false ∧ Example.stoppedLed.pin_high = false
      ∧ Example.stoppedLed.pulse_armed = none ∧ Example.stoppedLed.off_armed = none)
    ∧ (ESPNowTimeSyncLED.onPulseTimer Example.stoppedLed Example.startedMaster 3000000).pin_high
        = true
    ∧ (ESPNowTimeSyncLED.onPulseTimer Example.stoppedLed Example.startedMaster 3000000).off_armed
        = some 500
    ∧ (ESPNowTimeSyncLED.onPulseTimer Example.stoppedLed Example.startedMaster 3000000).pulse_armed
        = none := by
  decide

end TimeSync
